import Mathlib

/-!
# Fortune video site: the turn-ordered allocation engine of `server.js`

A shallow embedding of the coordination state of `src/server.js` (the three SQLite tables,
the in-memory queue, lock and cached spin results, the pending `setTimeout` callbacks) and of
the route handlers and helper functions that read and write it.

Modelling conventions.

* Each handler runs synchronously on the Node event loop; `Date.now()` is taken to return one
  value `now` for the whole run of a handler, passed in as an argument. For `POST /api/spin`
  the two reads that decide whether a round is open (in `expireRoundIfNeeded` and in
  `getActiveRound`) are also kept apart, in `apiSpinAt`.
* `Math.random()` is passed in as a fraction `num / den`; the product with `avail.length` and
  `Math.floor` are computed exactly.
* `nanoid(24)` is passed in as the string it returns.
* `SPIN_LOCK_MS` and `ROUND_HOURS` are read from the environment; they are fields of `Config`.
* A statement that throws (a failed `INSERT`, a property read on `undefined`) ends the handler
  with the mutations made so far kept; the outcome is `ServerError`.
* Files on disk (`fs.unlinkSync`, `res.sendFile`) are not part of the state.
-/

namespace Fortune

/-! ## Data model -/

/-- Configuration read from `process.env` at start-up. -/
structure Config where
  SPIN_LOCK_MS : Int
  ROUND_HOURS : Int
deriving DecidableEq, Repr

/-- The defaults of `server.js`: `SPIN_LOCK_MS = 8000`, `ROUND_HOURS = 24`. -/
def defaultConfig : Config := { SPIN_LOCK_MS := 8000, ROUND_HOURS := 24 }

/-- A row of table `slots`. -/
structure Slot where
  slot_index : Nat
  filename : Option String
  original_name : Option String
  uploaded_at : Option Int
  claimed : Bool
  claimed_at : Option Int
deriving DecidableEq, Repr

/-- A row of table `rounds`. -/
structure Round where
  id : Nat
  published_at : Int
  expires_at : Int
  active : Bool
deriving DecidableEq, Repr

/-- A row of table `downloads` (the token registry). -/
structure Download where
  token : String
  slot_index : Nat
  session_id : String
  created_at : Int
deriving DecidableEq, Repr

/-- The variable `lock = { sessionId, until }` (`until` is a Lean keyword, hence `until_`). -/
structure Lock where
  sessionId : Option String
  until_ : Int
deriving DecidableEq, Repr

/-- A value of the map `activeSpinResult`: `{ slotIndex, token, name }`. -/
structure SpinResult where
  slotIndex : Nat
  token : String
  name : String
deriving DecidableEq, Repr

/-- A pending `setTimeout(() => releaseLockFor(sid), SPIN_LOCK_MS + 50)`. -/
structure Timer where
  sid : String
  due : Int
deriving DecidableEq, Repr

/-- The value `Math.random()` returned, as the fraction `num / den`. -/
structure Rand where
  num : Nat
  den : Nat
deriving DecidableEq, Repr

/-- The whole mutable state of the server process. -/
structure State where
  slots : List Slot
  rounds : List Round
  downloads : List Download
  queue : List String
  lock : Lock
  activeSpinResult : List (String × SpinResult)
  timers : List Timer
  broadcasts : Nat
deriving DecidableEq, Repr

/-- The state right after start-up on an empty database: rows `0..4` in `slots`, nothing else. -/
def initialState : State :=
  { slots := (List.range 5).map fun i =>
      { slot_index := i, filename := none, original_name := none, uploaded_at := none,
        claimed := false, claimed_at := none }
    rounds := []
    downloads := []
    queue := []
    lock := { sessionId := none, until_ := 0 }
    activeSpinResult := []
    timers := []
    broadcasts := 0 }

/-! ## JavaScript and SQL helpers -/

/-- JavaScript truthiness of a nullable string: `null` and `""` are falsy. -/
def truthy : Option String → Bool
  | some s => s != ""
  | none => false

/-- The expression `Math.max(0, x)`. -/
def max0 (x : Int) : Int := if x < 0 then 0 else x

/-- Methods `Map.prototype.has`, `get`, `delete` and `set` on an association list. -/
def mapGet (m : List (String × SpinResult)) (k : String) : Option SpinResult :=
  (m.find? fun e => e.1 == k).map Prod.snd

def mapHas (m : List (String × SpinResult)) (k : String) : Bool :=
  m.any fun e => e.1 == k

def mapDelete (m : List (String × SpinResult)) (k : String) : List (String × SpinResult) :=
  m.filter fun e => !(e.1 == k)

def mapSet (m : List (String × SpinResult)) (k : String) (v : SpinResult) :
    List (String × SpinResult) :=
  if mapHas m k then m.map fun e => if e.1 == k then (k, v) else e else m ++ [(k, v)]

/-- The query `SELECT * FROM rounds WHERE active=1 ORDER BY id DESC LIMIT 1`. -/
def selectActiveRound : List Round → Option Round
  | [] => none
  | r :: rs =>
    match selectActiveRound rs with
    | none => if r.active then some r else none
    | some b => if r.active && decide (b.id < r.id) then some r else some b

/-- The next `AUTOINCREMENT` id of table `rounds`: one more than the largest id in use. -/
def nextRoundId (rounds : List Round) : Nat :=
  (rounds.foldl (fun m r => max m r.id) 0) + 1

/-! ## Helper functions of `server.js` -/

/-- Function `getActiveRound`. -/
def getActiveRound (s : State) (now : Int) : Option Round :=
  match selectActiveRound s.rounds with
  | none => none
  | some row => if row.expires_at ≤ now then none else some row

/-- Function `broadcastState`: one `io.emit("state", ...)`. -/
def broadcastState (s : State) : State :=
  { s with broadcasts := s.broadcasts + 1 }

/-- The statement
`UPDATE slots SET filename=NULL, original_name=NULL, uploaded_at=NULL, claimed=0, claimed_at=NULL`. -/
def wipeSlots (slots : List Slot) : List Slot :=
  slots.map fun r =>
    { r with filename := none, original_name := none, uploaded_at := none,
             claimed := false, claimed_at := none }

/-- The statement `UPDATE slots SET claimed=0, claimed_at=NULL`. -/
def unclaimSlots (slots : List Slot) : List Slot :=
  slots.map fun r => { r with claimed := false, claimed_at := none }

/-- Function `expireRoundIfNeeded`. -/
def expireRoundIfNeeded (s : State) (now : Int) : State :=
  match selectActiveRound s.rounds with
  | none => s
  | some row =>
    if row.expires_at > now then s
    else
      broadcastState
        { s with
          rounds := s.rounds.map fun r => if r.id = row.id then { r with active := false } else r
          slots := wipeSlots s.slots
          downloads := []
          queue := []
          lock := { sessionId := none, until_ := 0 }
          activeSpinResult := [] }

/-- Function `availableSlotIndexes`:
`SELECT slot_index FROM slots WHERE filename IS NOT NULL AND claimed=0 ORDER BY slot_index ASC`. -/
def availableSlotIndexes (s : State) : List Nat :=
  ((s.slots.filter fun r => r.filename.isSome && !r.claimed).map (·.slot_index)).insertionSort
    (· ≤ ·)

/-- Function `releaseLockFor`. -/
def releaseLockFor (s : State) (sessionId : String) : State :=
  let s1 := if s.lock.sessionId = some sessionId
    then { s with lock := { sessionId := none, until_ := 0 } } else s
  let s2 := if s1.queue.head? = some sessionId then { s1 with queue := s1.queue.tail } else s1
  broadcastState { s2 with activeSpinResult := mapDelete s2.activeSpinResult sessionId }

/-- Function `getTokenRow`. -/
def getTokenRow (s : State) (token : String) : Option Download :=
  s.downloads.find? fun d => d.token == token

/-- Function `getSlotFile`. -/
def getSlotFile (s : State) (slotIndex : Nat) : Option Slot :=
  s.slots.find? fun r => r.slot_index == slotIndex

/-! ## Route handlers -/

/-- The response of `POST /api/spin`. `ServerError` stands for an uncaught exception. -/
inductive Outcome where
  | NoActiveRound
  | Queued (position : Nat) (lockMsLeft : Int)
  | Won (slotIndex : Nat) (token : String) (name : String) (already : Bool) (lockMsLeft : Int)
  | NoPrizesLeft
  | ServerError
deriving DecidableEq, Repr

/-- The statement `UPDATE slots SET claimed=1, claimed_at=? WHERE slot_index=?`. -/
def claimSlot (slots : List Slot) (now : Int) (slotIndex : Nat) : List Slot :=
  slots.map fun r =>
    if r.slot_index = slotIndex then { r with claimed := true, claimed_at := some now } else r

/-- The display name ``slot.original_name || `slot_${slotIndex+1}` ``. -/
def displayName (row : Slot) (slotIndex : Nat) : String :=
  if truthy row.original_name then row.original_name.getD "" else "slot_" ++ toString (slotIndex + 1)

/-- The statement `if (!queue.includes(sid)) queue.push(sid)`. -/
def enqueue (queue : List String) (sid : String) : List String :=
  if sid ∈ queue then queue else queue ++ [sid]

/-- Handler `app.post("/api/spin")`, with `sid = req.sessionID`, `rnd = Math.random()` and
`token = nanoid(24)`. -/
def apiSpin (cfg : Config) (s : State) (sid : String) (now : Int) (rnd : Rand)
    (token : String) : State × Outcome :=
  let s0 := expireRoundIfNeeded s now
  match getActiveRound s0 now with
  | none => (s0, Outcome.NoActiveRound)
  | some _ =>
    -- Add to queue if not present
    let s1 := { s0 with queue := enqueue s0.queue sid }
    let lockActive : Bool := s1.lock.sessionId.isSome && decide (s1.lock.until_ > now)
    let isMyTurn : Bool := decide (s1.queue.head? = some sid)
    if lockActive && decide (s1.lock.sessionId ≠ some sid) then
      (s1, Outcome.Queued (s1.queue.indexOf sid + 1) (s1.lock.until_ - now))
    else if !isMyTurn then
      (s1, Outcome.Queued (s1.queue.indexOf sid + 1) (max0 (s1.lock.until_ - now)))
    else
      match mapGet s1.activeSpinResult sid with
      | some r =>
        (s1, Outcome.Won r.slotIndex r.token r.name true (max0 (s1.lock.until_ - now)))
      | none =>
        let avail := availableSlotIndexes s1
        if avail.length = 0 then
          let s2 := if s1.queue.head? = some sid then { s1 with queue := s1.queue.tail } else s1
          (broadcastState s2, Outcome.NoPrizesLeft)
        else
          -- Acquire lock
          let s2 := { s1 with lock := { sessionId := some sid, until_ := now + cfg.SPIN_LOCK_MS } }
          -- Pick random available slot; binding `undefined` makes `.get` throw
          match avail.get? (rnd.num * avail.length / rnd.den) with
          | none => (s2, Outcome.ServerError)
          | some slotIndex =>
            -- the row `SELECT ... FROM slots WHERE slot_index=?` reads, as in `getSlotFile`
            let slot := getSlotFile s2 slotIndex
            -- Claim immediately
            let s3 := { s2 with slots := claimSlot s2.slots now slotIndex }
            -- Create token tied to this session; `token` is the primary key of `downloads`
            if s3.downloads.any (fun d => d.token == token) then (s3, Outcome.ServerError)
            else
              let s4 := { s3 with downloads := s3.downloads ++
                [{ token := token, slot_index := slotIndex, session_id := sid, created_at := now }] }
              match slot with
              | none => (s4, Outcome.ServerError)
              | some row =>
                let result : SpinResult :=
                  { slotIndex := slotIndex, token := token, name := displayName row slotIndex }
                let s5 := { s4 with
                  activeSpinResult := mapSet s4.activeSpinResult sid result
                  timers := s4.timers ++ [{ sid := sid, due := now + (cfg.SPIN_LOCK_MS + 50) }] }
                (broadcastState s5,
                  Outcome.Won slotIndex token result.name false (max0 (s5.lock.until_ - now)))

/-- Handler `app.post("/api/spin")` with the clock read of `expireRoundIfNeeded` kept apart:
`tExpire` is what `Date.now()` returns at line 118, inside `expireRoundIfNeeded`, and `now` what
it returns afterwards, from `getActiveRound` (line 111) on. `apiSpin` is this handler with both
reads equal. -/
def apiSpinAt (cfg : Config) (s : State) (sid : String) (tExpire : Int) (now : Int) (rnd : Rand)
    (token : String) : State × Outcome :=
  let s0 := expireRoundIfNeeded s tExpire
  match getActiveRound s0 now with
  | none => (s0, Outcome.NoActiveRound)
  | some _ =>
    -- Add to queue if not present
    let s1 := { s0 with queue := enqueue s0.queue sid }
    let lockActive : Bool := s1.lock.sessionId.isSome && decide (s1.lock.until_ > now)
    let isMyTurn : Bool := decide (s1.queue.head? = some sid)
    if lockActive && decide (s1.lock.sessionId ≠ some sid) then
      (s1, Outcome.Queued (s1.queue.indexOf sid + 1) (s1.lock.until_ - now))
    else if !isMyTurn then
      (s1, Outcome.Queued (s1.queue.indexOf sid + 1) (max0 (s1.lock.until_ - now)))
    else
      match mapGet s1.activeSpinResult sid with
      | some r =>
        (s1, Outcome.Won r.slotIndex r.token r.name true (max0 (s1.lock.until_ - now)))
      | none =>
        let avail := availableSlotIndexes s1
        if avail.length = 0 then
          let s2 := if s1.queue.head? = some sid then { s1 with queue := s1.queue.tail } else s1
          (broadcastState s2, Outcome.NoPrizesLeft)
        else
          -- Acquire lock
          let s2 := { s1 with lock := { sessionId := some sid, until_ := now + cfg.SPIN_LOCK_MS } }
          -- Pick random available slot; binding `undefined` makes `.get` throw
          match avail.get? (rnd.num * avail.length / rnd.den) with
          | none => (s2, Outcome.ServerError)
          | some slotIndex =>
            -- the row `SELECT ... FROM slots WHERE slot_index=?` reads, as in `getSlotFile`
            let slot := getSlotFile s2 slotIndex
            -- Claim immediately
            let s3 := { s2 with slots := claimSlot s2.slots now slotIndex }
            -- Create token tied to this session; `token` is the primary key of `downloads`
            if s3.downloads.any (fun d => d.token == token) then (s3, Outcome.ServerError)
            else
              let s4 := { s3 with downloads := s3.downloads ++
                [{ token := token, slot_index := slotIndex, session_id := sid, created_at := now }] }
              match slot with
              | none => (s4, Outcome.ServerError)
              | some row =>
                let result : SpinResult :=
                  { slotIndex := slotIndex, token := token, name := displayName row slotIndex }
                let s5 := { s4 with
                  activeSpinResult := mapSet s4.activeSpinResult sid result
                  timers := s4.timers ++ [{ sid := sid, due := now + (cfg.SPIN_LOCK_MS + 50) }] }
                (broadcastState s5,
                  Outcome.Won slotIndex token result.name false (max0 (s5.lock.until_ - now)))

/-- The response of `POST /api/admin/publish`. -/
inductive PublishOutcome where
  | NO_VIDEOS
  | Ok (publishedAt : Int) (expiresAt : Int)
deriving DecidableEq, Repr

/-- The statement `UPDATE rounds SET active=0 WHERE active=1`. -/
def deactivateRounds (rounds : List Round) : List Round :=
  rounds.map fun r => if r.active then { r with active := false } else r

/-- Handler `app.post("/api/admin/publish")`, run after `adminOnly` has let the request through. -/
def adminPublish (cfg : Config) (s : State) (now : Int) : State × PublishOutcome :=
  let count := (s.slots.filter fun r => r.filename.isSome).length
  if count = 0 then (s, PublishOutcome.NO_VIDEOS)
  else
    let rounds1 := deactivateRounds s.rounds
    let publishedAt := now
    let expiresAt := publishedAt + cfg.ROUND_HOURS * 60 * 60 * 1000
    let rounds2 := rounds1 ++
      [{ id := nextRoundId rounds1, published_at := publishedAt, expires_at := expiresAt,
         active := true }]
    (broadcastState
      { s with
        rounds := rounds2
        slots := unclaimSlots s.slots
        downloads := []
        queue := []
        lock := { sessionId := none, until_ := 0 }
        activeSpinResult := [] },
      PublishOutcome.Ok publishedAt expiresAt)

/-- Handler `app.post("/api/admin/clear")`, run after `adminOnly` has let the request through. -/
def adminClear (s : State) : State :=
  broadcastState
    { s with
      rounds := deactivateRounds s.rounds
      slots := wipeSlots s.slots
      downloads := []
      queue := []
      lock := { sessionId := none, until_ := 0 }
      activeSpinResult := [] }

/-- The file multer stored for the request: `req.file.filename` and `req.file.originalname`. -/
structure UploadedFile where
  filename : String
  originalname : String
deriving DecidableEq, Repr

/-- The response of `POST /api/admin/upload/:slot`. -/
inductive UploadOutcome where
  | BAD_SLOT
  | Ok
  | ServerError
deriving DecidableEq, Repr

/-- Handler `app.post("/api/admin/upload/:slot")`, run after `adminOnly` and multer; `slot` is
the integer `parseInt` read (a `NaN` is refused like an integer out of range) and `file` is
`req.file` (`none` when the request carried no file, in which case reading `req.file.filename`
throws). -/
def adminUpload (s : State) (slot : Int) (file : Option UploadedFile) (now : Int) :
    State × UploadOutcome :=
  if ¬ (slot ≥ 0 ∧ slot < 5) then (s, UploadOutcome.BAD_SLOT)
  else
    match file with
    | none => (s, UploadOutcome.ServerError)
    | some f =>
      (broadcastState
        { s with slots := s.slots.map fun r =>
            if (r.slot_index : Int) = slot then
              { r with filename := some f.filename, original_name := some f.originalname,
                       uploaded_at := some now, claimed := false, claimed_at := none }
            else r },
        UploadOutcome.Ok)

/-- The response of a retrieval endpoint. -/
inductive Response where
  | NotFound
  | Forbidden
  | Gone
  | WatchPage (title : String) (token : String)
  | File (filename : String)
  | Attachment (filename : String) (name : String)
deriving DecidableEq, Repr

/-- The two replacements `.replace(/</g, "&lt;").replace(/>/g, "&gt;")`. -/
def escapeTitle (t : String) : String :=
  String.join (t.toList.map fun c =>
    if c = '<' then "&lt;" else if c = '>' then "&gt;" else String.singleton c)

/-- The expression `x || dflt` on a nullable string. -/
def orElseStr (x : Option String) (dflt : String) : String :=
  if truthy x then x.getD dflt else dflt

/-- Handler `app.get("/watch/:token")`, with `sessionID = req.sessionID`. -/
def watch (s : State) (token : String) (sessionID : String) : Response :=
  match getTokenRow s token with
  | none => Response.NotFound
  | some row =>
    if row.session_id ≠ sessionID then Response.Forbidden
    else
      match getSlotFile s row.slot_index with
      | none => Response.Gone
      | some slot =>
        if !truthy slot.filename then Response.Gone
        else Response.WatchPage (escapeTitle (orElseStr slot.original_name "video")) token

/-- Handler `app.get("/stream/:token")`. -/
def stream (s : State) (token : String) (sessionID : String) : Response :=
  match getTokenRow s token with
  | none => Response.NotFound
  | some row =>
    if row.session_id ≠ sessionID then Response.Forbidden
    else
      match getSlotFile s row.slot_index with
      | none => Response.Gone
      | some slot =>
        if !truthy slot.filename then Response.Gone
        else Response.File (slot.filename.getD "")

/-- Handler `app.get("/download/:token")`. -/
def download (s : State) (token : String) (sessionID : String) : Response :=
  match getTokenRow s token with
  | none => Response.NotFound
  | some row =>
    if row.session_id ≠ sessionID then Response.Forbidden
    else
      match getSlotFile s row.slot_index with
      | none => Response.Gone
      | some slot =>
        if !truthy slot.filename then Response.Gone
        else Response.Attachment (slot.filename.getD "") (orElseStr slot.original_name "video.mp4")

/-! ## Runs of the server -/

/-- One thing that happens to the server: a request or a timer firing. -/
inductive Event where
  | spin (sid : String) (now : Int) (rnd : Rand) (token : String)
  | timer (k : Nat)
  | sweep (now : Int)
  | publish (now : Int)
  | clear
  | upload (slot : Int) (file : Option UploadedFile) (now : Int)
deriving DecidableEq, Repr

/-- Operator actions are the three admin requests. -/
def Event.isOperator : Event → Bool
  | Event.publish _ => true
  | Event.clear => true
  | Event.upload _ _ _ => true
  | _ => false

/-- The `k`-th pending timeout fires: it leaves the timer list and runs `releaseLockFor(sid)`. -/
def fireTimer (s : State) (k : Nat) : State :=
  match s.timers.get? k with
  | none => s
  | some t => releaseLockFor { s with timers := s.timers.eraseIdx k } t.sid

/-- The state after one event, and the spin outcome when the event is a spin. -/
def step (cfg : Config) (s : State) : Event → State × Option Outcome
  | Event.spin sid now rnd token =>
    ((apiSpin cfg s sid now rnd token).1, some (apiSpin cfg s sid now rnd token).2)
  | Event.timer k => (fireTimer s k, none)
  | Event.sweep now => (expireRoundIfNeeded s now, none)
  | Event.publish now => ((adminPublish cfg s now).1, none)
  | Event.clear => (adminClear s, none)
  | Event.upload slot file now => ((adminUpload s slot file now).1, none)

/-- One entry of a run: the state before, the event, the outcome and the state after. -/
structure StepRecord where
  before : State
  event : Event
  outcome : Option Outcome
  after : State
deriving DecidableEq, Repr

/-- The run of a list of events from a state, as the list of its steps. -/
def runFrom (cfg : Config) : State → List Event → List StepRecord
  | _, [] => []
  | s, e :: es =>
    { before := s, event := e, outcome := (step cfg s e).2, after := (step cfg s e).1 } ::
      runFrom cfg (step cfg s e).1 es

/-- The state a run ends in. -/
def finalState (cfg : Config) : State → List Event → State
  | s, [] => s
  | s, e :: es => finalState cfg (step cfg s e).1 es

/-- The slot index of a step that won a slot anew (a `Won` outcome that is not a repeat). -/
def StepRecord.wonSlot (r : StepRecord) : Option Nat :=
  match r.outcome with
  | some (Outcome.Won slotIndex _ _ false _) => some slotIndex
  | _ => none

/-! ## Specification predicates -/

/-- The coordination state is reset: empty queue, unheld lock, no cached result, no claim and
an empty token registry. -/
def IsReset (s : State) : Prop :=
  s.queue = [] ∧ s.lock = { sessionId := none, until_ := 0 } ∧ s.activeSpinResult = [] ∧
  (∀ r ∈ s.slots, r.claimed = false ∧ r.claimed_at = none) ∧ s.downloads = []

/-- A retrieval response that serves the artifact. -/
def Response.served : Response → Bool
  | Response.WatchPage _ _ => true
  | Response.File _ => true
  | Response.Attachment _ _ => true
  | _ => false

/-- No registered token is bound to an available slot, and the registered tokens are bound to
pairwise distinct slot indices. -/
def TokensDistinct (s : State) : Prop :=
  (∀ d ∈ s.downloads, d.slot_index ∉ availableSlotIndexes s) ∧
  (s.downloads.map (·.slot_index)).Nodup

/-- The lock is held, unexpired, by an identity other than `sid`:
`lock.sessionId != null && lock.until > now() && lock.sessionId !== sid`. -/
def heldByOther (s : State) (sid : String) (now : Int) : Bool :=
  (s.lock.sessionId.isSome && decide (s.lock.until_ > now)) && decide (s.lock.sessionId ≠ some sid)

/-- The lock holder, when there is one, is the head of the queue and has a cached draw result;
every cached draw result belongs to the lock holder, and there is at most one. -/
def LockInv (s : State) : Prop :=
  (∀ h, s.lock.sessionId = some h →
    s.queue.head? = some h ∧ mapGet s.activeSpinResult h ≠ none) ∧
  (∀ e ∈ s.activeSpinResult, s.lock.sessionId = some e.1) ∧
  s.activeSpinResult.length ≤ 1

/-! ## Example states and runs -/

/-- A fresh server after the operator uploaded files into slots 0 and 1 at time 0. -/
def twoUploads : State :=
  (adminUpload (adminUpload initialState 0 (some { filename := "f0", originalname := "a.mp4" }) 0).1
    1 (some { filename := "f1", originalname := "b.mp4" }) 0).1

/-- The round published at time 0 on `twoUploads`; it expires at 86400000. -/
def twoPublished : State := (adminPublish defaultConfig twoUploads 0).1

/-- Identity `A` draws at time 1000 and `B` asks at 2000 and is queued behind `A`. -/
def aHoldsLock : State :=
  finalState defaultConfig twoPublished
    [Event.spin "A" 1000 { num := 0, den := 1 } "tA", Event.spin "B" 2000 { num := 0, den := 1 } "tB"]

/-- A run without operator action: `A` draws, `B` is queued, the release timer of `A` fires,
`B` draws, `A` asks again and is queued behind `B`. -/
def demoEvents : List Event :=
  [Event.spin "A" 1000 { num := 1, den := 2 } "tA", Event.spin "B" 2000 { num := 0, den := 1 } "tB",
   Event.timer 0, Event.spin "B" 9100 { num := 0, den := 1 } "tB", Event.sweep 9200,
   Event.spin "A" 9300 { num := 0, den := 1 } "tC"]

/-- Identity `A` draws 1 second before the round of `twoPublished` expires, `B` and `C` queue
up behind it. -/
def lateDraw : State :=
  finalState defaultConfig twoPublished
    [Event.spin "A" 86399000 { num := 0, den := 1 } "tA",
     Event.spin "B" 86399100 { num := 0, den := 1 } "tB",
     Event.spin "C" 86399200 { num := 0, den := 1 } "tC"]

/-- Identity `A` has drawn slot 0 with token `tA` and its release timer has fired. -/
def aDone : State :=
  finalState defaultConfig twoPublished
    [Event.spin "A" 1000 { num := 0, den := 1 } "tA", Event.timer 0]

/-- After `aDone`: the `INSERT` of the draw of `C` at 10000 fails on the token `tA` again (`C`
holds the lock until 18000, slot 1 is claimed), `B` queues up behind `C`, and `C` asks again at
11000, finds no prize left and leaves the queue. -/
def lockWithoutHolderQueued : State :=
  finalState defaultConfig aDone
    [Event.spin "C" 10000 { num := 0, den := 1 } "tA",
     Event.spin "B" 10500 { num := 0, den := 1 } "tB",
     Event.spin "C" 11000 { num := 0, den := 1 } "tC"]

/-- A fresh server with a file in each of the five slots, published at time 0. -/
def fivePublished : State :=
  (adminPublish defaultConfig
    ((List.range 5).foldl
      (fun s i => (adminUpload s i (some { filename := "f", originalname := "v.mp4" }) 0).1)
      initialState) 0).1

/-- Identities `A` to `E` draw one after the other, each release timer firing before the next
draw. -/
def fiveDraws : List Event :=
  [Event.spin "A" 1000 { num := 0, den := 1 } "tA", Event.timer 0,
   Event.spin "B" 10000 { num := 1, den := 2 } "tB", Event.timer 0,
   Event.spin "C" 20000 { num := 2, den := 3 } "tC", Event.timer 0,
   Event.spin "D" 30000 { num := 0, den := 1 } "tD", Event.timer 0,
   Event.spin "E" 40000 { num := 0, den := 1 } "tE", Event.timer 0]

/-- The state after `fiveDraws` without its last step: all five slots are claimed and `E`, who
drew last at 40000, still holds the lock. -/
def eHoldsLock : State := finalState defaultConfig fivePublished fiveDraws.dropLast

/-- The state after `fiveDraws`: all five slots are claimed. -/
def allClaimed : State := finalState defaultConfig fivePublished fiveDraws

/-- A release timer outlives a reset: `A` draws at 1000 in `twoPublished` (release due at 9050),
the operator clears, uploads a file into slot 0 and publishes again at 2000, `A` draws in the new
round at 3000 (lock until 11000) and `B` queues up behind `A`. Timer 0 is the one of the first
round. -/
def staleTimerPending : State :=
  finalState defaultConfig twoPublished
    [Event.spin "A" 1000 { num := 0, den := 1 } "tA", Event.clear,
     Event.upload 0 (some { filename := "g0", originalname := "c.mp4" }) 1500,
     Event.publish 2000,
     Event.spin "A" 3000 { num := 0, den := 1 } "tB",
     Event.spin "B" 3500 { num := 0, den := 1 } "tC"]

/-- In `fivePublished`, identity `A` has drawn slot 0 with token `tA` and its release timer has
fired. -/
def firstOfFiveDone : State :=
  finalState defaultConfig fivePublished
    [Event.spin "A" 1000 { num := 0, den := 1 } "tA", Event.timer 0]

/-- A run in one round of `twoPublished`: `A` wins slot 0 and is released, the operator uploads
a new file into slot 0 at 5000, and `B` draws at 10000. -/
def reuploadEvents : List Event :=
  [Event.spin "A" 1000 { num := 0, den := 1 } "tA", Event.timer 0,
   Event.upload 0 (some { filename := "g0", originalname := "c.mp4" }) 5000,
   Event.spin "B" 10000 { num := 0, den := 1 } "tB"]

/-- A run from the fresh server: two uploads, a publish, `A` wins slot 0 with token `tA` and is
released; the generator returns `tA` again for the draw of `C` at 10000, whose `INSERT` fails;
`B` queues up; `C` asks again at 11000 and finds no prize left. -/
def collisionEvents : List Event :=
  [Event.upload 0 (some { filename := "f0", originalname := "a.mp4" }) 0,
   Event.upload 1 (some { filename := "f1", originalname := "b.mp4" }) 0,
   Event.publish 0,
   Event.spin "A" 1000 { num := 0, den := 1 } "tA", Event.timer 0,
   Event.spin "C" 10000 { num := 0, den := 1 } "tA",
   Event.spin "B" 10500 { num := 0, den := 1 } "tB",
   Event.spin "C" 11000 { num := 0, den := 1 } "tC"]

/-- A run from the fresh server without any failed call: two uploads, a publish, `A` wins, `B`
queues up, `A` asks again, the release timer of `A` fires, `B` wins. -/
def plainEvents : List Event :=
  [Event.upload 0 (some { filename := "f0", originalname := "a.mp4" }) 0,
   Event.upload 1 (some { filename := "f1", originalname := "b.mp4" }) 0,
   Event.publish 0,
   Event.spin "A" 1000 { num := 0, den := 1 } "tA",
   Event.spin "B" 2000 { num := 0, den := 1 } "tB",
   Event.spin "A" 3000 { num := 0, den := 1 } "tC", Event.timer 0,
   Event.spin "B" 9100 { num := 0, den := 1 } "tD"]

/-! ## Basic lemmas -/

theorem selectActiveRound_some {rs : List Round} {r : Round}
    (h : selectActiveRound rs = some r) : r ∈ rs ∧ r.active = true := by
  induction rs generalizing r with
  | nil => simp [selectActiveRound] at h
  | cons a rs ih =>
    unfold selectActiveRound at h
    split at h
    · split at h
      · simp only [Option.some.injEq] at h; subst h; simp [*]
      · simp at h
    · rename_i b hb
      split at h
      · rename_i hc
        simp only [Option.some.injEq] at h; subst h
        simp only [Bool.and_eq_true] at hc
        simp [hc.1]
      · simp only [Option.some.injEq] at h; subst h
        exact ⟨List.mem_cons_of_mem _ (ih hb).1, (ih hb).2⟩

theorem selectActiveRound_none {rs : List Round} :
    selectActiveRound rs = none ↔ ∀ r ∈ rs, r.active = false := by
  induction rs with
  | nil => simp [selectActiveRound]
  | cons a rs ih =>
    unfold selectActiveRound
    split
    · rename_i hn
      have := ih.1 hn
      constructor
      · intro h r hr
        rcases List.mem_cons.1 hr with rfl | hr
        · by_contra hc; simp at hc; simp [hc] at h
        · exact this r hr
      · intro h
        have := h a (List.mem_cons_self _ _)
        simp [this]
    · rename_i b hb
      have hb2 := selectActiveRound_some hb
      constructor
      · intro h; split at h <;> simp at h
      · intro h
        have := h b (List.mem_cons_of_mem _ hb2.1)
        simp [hb2.2] at this

theorem expire_of_active {s : State} {now : Int} {r : Round}
    (h : getActiveRound s now = some r) : expireRoundIfNeeded s now = s := by
  unfold getActiveRound at h
  unfold expireRoundIfNeeded
  split at h
  · simp at h
  · rename_i row hrow
    split at h
    · simp at h
    · rename_i hlt
      rw [if_pos (by omega)]

theorem expire_reset {s : State} {now : Int} {row : Round}
    (h : selectActiveRound s.rounds = some row) (hexp : row.expires_at ≤ now) :
    expireRoundIfNeeded s now =
      { s with
        rounds := s.rounds.map fun r => if r.id = row.id then { r with active := false } else r
        slots := wipeSlots s.slots
        downloads := []
        queue := []
        lock := { sessionId := none, until_ := 0 }
        activeSpinResult := []
        broadcasts := s.broadcasts + 1 } := by
  unfold expireRoundIfNeeded
  simp only [h]
  rw [if_neg (by omega)]
  rfl

/-- C5. After a successful publish, after clear, and after `expireRoundIfNeeded` run on an
active round with `expires_at <= now`, the queue is empty, the lock is unheld
(`sessionId = null`, `until = 0`), the cached draw results are empty, every slot has
`claimed = false` and `claimed_at = null`, and table `downloads` is empty; this holds from
every prior state. -/
theorem C5_reset_after_publish_clear_expiry (cfg : Config) (s : State) (now : Int) :
    ((adminPublish cfg s now).2 ≠ PublishOutcome.NO_VIDEOS → IsReset (adminPublish cfg s now).1) ∧
    IsReset (adminClear s) ∧
    (∀ row, selectActiveRound s.rounds = some row → row.expires_at ≤ now →
      IsReset (expireRoundIfNeeded s now)) := by
  refine ⟨?_, ?_, ?_⟩
  · intro h
    unfold adminPublish at h ⊢
    simp only at h ⊢
    split
    · rename_i hc; simp [hc] at h
    · simp [IsReset, broadcastState, unclaimSlots]
  · simp [IsReset, adminClear, broadcastState, wipeSlots]
  · intro row hrow hexp
    rw [expire_reset hrow hexp]
    simp [IsReset, wipeSlots]

theorem deactivateRounds_eq (rs : List Round) :
    deactivateRounds rs = rs.map fun r => { r with active := false } := by
  unfold deactivateRounds
  apply List.map_congr_left
  intro r _
  cases h : r.active <;> simp
  cases r; simp_all

theorem filter_active_deactivate (rs : List Round) :
    (rs.map fun r => { r with active := false }).filter (fun r : Round => r.active) = [] := by
  simp [List.filter_eq_nil_iff]

theorem le_foldl_max (rs : List Round) (m : Nat) :
    m ≤ rs.foldl (fun m r => max m r.id) m ∧
    ∀ r ∈ rs, r.id ≤ rs.foldl (fun m r => max m r.id) m := by
  induction rs generalizing m with
  | nil => simp
  | cons a rs ih =>
    simp only [List.foldl_cons, List.mem_cons, forall_eq_or_imp]
    have h1 := (ih (max m a.id)).1
    have h2 := (ih (max m a.id)).2
    refine ⟨by omega, by omega, h2⟩

theorem lt_nextRoundId (rs : List Round) : ∀ r ∈ rs, r.id < nextRoundId rs := by
  intro r hr
  have := (le_foldl_max rs 0).2 r hr
  unfold nextRoundId
  omega

/-- C6. Publish fails with `NO_VIDEOS` exactly when no slot row has a filename, and then the
whole state (rounds, slots, tokens, queue, lock) is unchanged. Otherwise it succeeds: the
rounds table becomes the old rows, all inactive, followed by one new row with a fresh id,
`published_at = now`, `expires_at = published_at + ROUND_HOURS * 3600000` and `active = 1`,
which is then the only active row; every slot keeps its index, filename and original name. -/
theorem C6_publish (cfg : Config) (s : State) (now : Int) :
    ((adminPublish cfg s now).2 = PublishOutcome.NO_VIDEOS ↔ ∀ r ∈ s.slots, r.filename = none) ∧
    ((adminPublish cfg s now).2 = PublishOutcome.NO_VIDEOS → (adminPublish cfg s now).1 = s) ∧
    ((adminPublish cfg s now).2 ≠ PublishOutcome.NO_VIDEOS →
      (adminPublish cfg s now).2 =
        PublishOutcome.Ok now (now + cfg.ROUND_HOURS * 3600000) ∧
      ∃ newRound : Round,
        (adminPublish cfg s now).1.rounds =
          (s.rounds.map fun r => { r with active := false }) ++ [newRound] ∧
        (∀ r ∈ s.rounds, r.id ≠ newRound.id) ∧
        newRound.published_at = now ∧
        newRound.expires_at = newRound.published_at + cfg.ROUND_HOURS * 3600000 ∧
        newRound.active = true ∧
        (adminPublish cfg s now).1.rounds.filter (fun r => r.active) = [newRound] ∧
        (adminPublish cfg s now).1.slots.map (fun r => (r.slot_index, r.filename, r.original_name))
          = s.slots.map (fun r => (r.slot_index, r.filename, r.original_name))) := by
  have hcount : (s.slots.filter fun r => r.filename.isSome).length = 0 ↔
      ∀ r ∈ s.slots, r.filename = none := by
    simp [List.filter_eq_nil_iff]
  unfold adminPublish
  simp only
  split
  · rename_i hc
    have := hcount.1 hc
    simp
    exact this
  · rename_i hc
    refine ⟨by simpa using fun h => hc (hcount.2 h), by simp, fun _ => ⟨?_, ?_⟩⟩
    · simp only [PublishOutcome.Ok.injEq, true_and]; ring
    · refine ⟨{ id := nextRoundId (deactivateRounds s.rounds), published_at := now,
                expires_at := now + cfg.ROUND_HOURS * 60 * 60 * 1000, active := true },
              ?_, ?_, rfl, ?_, rfl, ?_, ?_⟩
      · simp [broadcastState, deactivateRounds_eq]
      · intro r hr
        have := lt_nextRoundId (deactivateRounds s.rounds) { r with active := false }
          (by rw [deactivateRounds_eq]; exact List.mem_map.2 ⟨r, hr, rfl⟩)
        simp only at this ⊢
        omega
      · simp only; ring
      · simp only [broadcastState, deactivateRounds_eq, List.filter_append,
          filter_active_deactivate]
        simp
      · simp [broadcastState, unclaimSlots]

theorem getTokenRow_none {s : State} {token : String} :
    getTokenRow s token = none ↔ ∀ d ∈ s.downloads, d.token ≠ token := by
  simp [getTokenRow, List.find?_eq_none]

theorem getTokenRow_some {s : State} {token : String} {d : Download}
    (h : getTokenRow s token = some d) : d ∈ s.downloads ∧ d.token = token := by
  unfold getTokenRow at h
  exact ⟨List.mem_of_find?_eq_some h, by simpa using List.find?_some h⟩

theorem truthy_some {x : Option String} (h : truthy x = true) : ∃ v, x = some v := by
  cases x with
  | none => simp [truthy] at h
  | some v => exact ⟨v, rfl⟩

/-- The three retrieval handlers in terms of the two lookups `getTokenRow` and `getSlotFile`:
404, else 403, else 410, else the file of the row `getSlotFile` returns. -/
theorem retrieval_precedence (s : State) (token : String) (sessionID : String) :
    (getTokenRow s token = none ↔ ∀ d ∈ s.downloads, d.token ≠ token) ∧
    (∀ f ∈ [watch, stream, download],
      (getTokenRow s token = none → f s token sessionID = Response.NotFound) ∧
      (∀ d, getTokenRow s token = some d → d.session_id ≠ sessionID →
        f s token sessionID = Response.Forbidden) ∧
      (∀ d, getTokenRow s token = some d → d.session_id = sessionID →
        (∀ slot, getSlotFile s d.slot_index = some slot → truthy slot.filename = false) →
        f s token sessionID = Response.Gone) ∧
      ((f s token sessionID).served = true ↔
        ∃ d slot, d ∈ s.downloads ∧ d.token = token ∧ getTokenRow s token = some d ∧
          d.session_id = sessionID ∧ getSlotFile s d.slot_index = some slot ∧
          truthy slot.filename = true)) ∧
    (∀ d slot, getTokenRow s token = some d → d.session_id = sessionID →
      getSlotFile s d.slot_index = some slot → truthy slot.filename = true →
      watch s token sessionID =
        Response.WatchPage (escapeTitle (orElseStr slot.original_name "video")) token ∧
      ∃ file, slot.filename = some file ∧
        stream s token sessionID = Response.File file ∧
        download s token sessionID =
          Response.Attachment file (orElseStr slot.original_name "video.mp4")) := by
  refine ⟨getTokenRow_none, ?_, ?_⟩
  · intro f hf
    simp only [List.mem_cons, List.mem_singleton, List.not_mem_nil, or_false] at hf
    cases hrow : getTokenRow s token with
    | none =>
      refine ⟨fun _ => ?_, by simp, by simp, ?_⟩ <;>
        rcases hf with rfl | rfl | rfl <;> simp [watch, stream, download, hrow, Response.served]
    | some d =>
      have hd := getTokenRow_some hrow
      by_cases hsid : d.session_id = sessionID
      · cases hslot : getSlotFile s d.slot_index with
        | none =>
          refine ⟨by simp, ?_, ?_, ?_⟩ <;>
            rcases hf with rfl | rfl | rfl <;>
            simp [watch, stream, download, hrow, hsid, hslot, Response.served] <;>
            (intro x _ _ hx; subst hx; simp [hslot])
        | some slot =>
          cases htr : truthy slot.filename
          · refine ⟨by simp, ?_, ?_, ?_⟩ <;>
              rcases hf with rfl | rfl | rfl <;>
              simp [watch, stream, download, hrow, hsid, hslot, htr, Response.served] <;>
              (intro x _ _ hx; subst hx; simp [hslot, htr])
          · refine ⟨by simp, ?_, ?_, ?_⟩ <;>
              rcases hf with rfl | rfl | rfl <;>
              simp [watch, stream, download, hrow, hsid, hslot, htr, Response.served] <;>
              exact ⟨d, hd.1, hd.2, rfl, hsid, slot, hslot, htr⟩
      · refine ⟨by simp, ?_, ?_, ?_⟩ <;>
          rcases hf with rfl | rfl | rfl <;>
          simp [watch, stream, download, hrow, hsid, Response.served] <;>
          (intro x _ _ hx; subst hx; simp [hsid])
  · intro d slot hrow hsid hslot htr
    obtain ⟨file, hfile⟩ := truthy_some htr
    have htr2 : truthy (some file) = true := hfile ▸ htr
    refine ⟨?_, file, hfile, ?_, ?_⟩ <;>
      simp [watch, stream, download, hrow, hsid, hslot, hfile, htr2]

theorem getSlotFile_none {s : State} {i : Nat} :
    getSlotFile s i = none ↔ ∀ r ∈ s.slots, r.slot_index ≠ i := by
  simp [getSlotFile, List.find?_eq_none]

theorem getSlotFile_some {s : State} {i : Nat} {slot : Slot} :
    getSlotFile s i = some slot ↔
      slot.slot_index = i ∧
      ∃ pre post, s.slots = pre ++ slot :: post ∧ ∀ r ∈ pre, r.slot_index ≠ i := by
  unfold getSlotFile
  rw [List.find?_eq_some]
  simp

theorem getTokenRow_first {s : State} {token : String} {d : Download} :
    getTokenRow s token = some d ↔
      d.token = token ∧
      ∃ pre post, s.downloads = pre ++ d :: post ∧ ∀ x ∈ pre, x.token ≠ token := by
  unfold getTokenRow
  rw [List.find?_eq_some]
  simp

theorem getSlotFile_mem {s : State} {i : Nat} {slot : Slot} (h : getSlotFile s i = some slot) :
    slot ∈ s.slots ∧ slot.slot_index = i := by
  obtain ⟨h1, pre, post, h2, _⟩ := getSlotFile_some.1 h
  exact ⟨by rw [h2]; simp, h1⟩

/-- C7. The token is looked up in `downloads` (`getTokenRow`: the first row with that token,
none exactly when no row has it) and the slot in `slots` (`getSlotFile`: the first row whose
`slot_index` is the one the token row is bound to, none exactly when no row has that index).
For each of `watch`, `stream` and `download`: the response is 404 when the token has no row;
otherwise 403 when the row's `session_id` differs from the requester's session; otherwise 410
when the bound slot has no row or its row has a null or empty filename; otherwise the file that
the row of the bound slot holds at the time of the request is served (the watch page for that
token, the file, the file as an attachment). Hence the artifact of the bound slot is served
exactly when the token is registered, owned by the requester and the bound slot has a file, and
never to another identity. -/
theorem C7_retrieval (s : State) (token : String) (sessionID : String) :
    (getTokenRow s token = none ↔ ∀ d ∈ s.downloads, d.token ≠ token) ∧
    (∀ f ∈ [watch, stream, download],
      (getTokenRow s token = none → f s token sessionID = Response.NotFound) ∧
      (∀ d, getTokenRow s token = some d → d.session_id ≠ sessionID →
        f s token sessionID = Response.Forbidden) ∧
      (∀ d, getTokenRow s token = some d → d.session_id = sessionID →
        (∀ slot, getSlotFile s d.slot_index = some slot → truthy slot.filename = false) →
        f s token sessionID = Response.Gone) ∧
      (∀ d, getTokenRow s token = some d → d.session_id = sessionID →
        (∀ r ∈ s.slots, r.slot_index = d.slot_index → truthy r.filename = false) →
        f s token sessionID = Response.Gone) ∧
      ((f s token sessionID).served = true ↔
        ∃ d slot, d ∈ s.downloads ∧ d.token = token ∧ getTokenRow s token = some d ∧
          d.session_id = sessionID ∧ getSlotFile s d.slot_index = some slot ∧
          slot ∈ s.slots ∧ slot.slot_index = d.slot_index ∧
          truthy slot.filename = true)) ∧
    (∀ d slot, getTokenRow s token = some d → d.session_id = sessionID →
      getSlotFile s d.slot_index = some slot → truthy slot.filename = true →
      slot ∈ s.slots ∧ slot.slot_index = d.slot_index ∧
      watch s token sessionID =
        Response.WatchPage (escapeTitle (orElseStr slot.original_name "video")) token ∧
      ∃ file, slot.filename = some file ∧
        stream s token sessionID = Response.File file ∧
        download s token sessionID =
          Response.Attachment file (orElseStr slot.original_name "video.mp4")) ∧
    (∀ d, getTokenRow s token = some d ↔
      d.token = token ∧
      ∃ pre post, s.downloads = pre ++ d :: post ∧ ∀ x ∈ pre, x.token ≠ token) ∧
    (∀ i, getSlotFile s i = none ↔ ∀ r ∈ s.slots, r.slot_index ≠ i) ∧
    (∀ i slot, getSlotFile s i = some slot ↔
      slot.slot_index = i ∧
      ∃ pre post, s.slots = pre ++ slot :: post ∧ ∀ r ∈ pre, r.slot_index ≠ i) := by
  obtain ⟨h1, h2, h3⟩ := retrieval_precedence s token sessionID
  refine ⟨h1, ?_, ?_, fun _ => getTokenRow_first, fun _ => getSlotFile_none,
    fun _ _ => getSlotFile_some⟩
  · intro f hf
    obtain ⟨g1, g2, g3, g4⟩ := h2 f hf
    refine ⟨g1, g2, g3, ?_, ?_⟩
    · intro d hd hsid hall
      refine g3 d hd hsid ?_
      intro slot hslot
      obtain ⟨hm, hi⟩ := getSlotFile_mem hslot
      exact hall slot hm hi
    · rw [g4]
      constructor
      · rintro ⟨d, slot, a1, a2, a3, a4, a5, a6⟩
        exact ⟨d, slot, a1, a2, a3, a4, a5, (getSlotFile_mem a5).1, (getSlotFile_mem a5).2, a6⟩
      · rintro ⟨d, slot, a1, a2, a3, a4, a5, _, _, a6⟩
        exact ⟨d, slot, a1, a2, a3, a4, a5, a6⟩
  · intro d slot hd hsid hslot htr
    obtain ⟨k1, k2⟩ := h3 d slot hd hsid hslot htr
    exact ⟨(getSlotFile_mem hslot).1, (getSlotFile_mem hslot).2, k1, k2⟩

theorem mem_avail {s : State} {j : Nat} :
    j ∈ availableSlotIndexes s ↔
      ∃ r ∈ s.slots, r.filename.isSome = true ∧ r.claimed = false ∧ r.slot_index = j := by
  unfold availableSlotIndexes
  rw [(List.perm_insertionSort _ _).mem_iff]
  simp only [List.mem_map, List.mem_filter, Bool.and_eq_true, Bool.not_eq_true']
  constructor
  · rintro ⟨r, ⟨hr, h1, h2⟩, rfl⟩; exact ⟨r, hr, h1, h2, rfl⟩
  · rintro ⟨r, hr, h1, h2, rfl⟩; exact ⟨r, ⟨hr, h1, h2⟩, rfl⟩

theorem avail_eq_nil {s : State} :
    availableSlotIndexes s = [] ↔
      ∀ r ∈ s.slots, ¬ (r.filename.isSome = true ∧ r.claimed = false) := by
  rw [List.eq_nil_iff_forall_not_mem]
  constructor
  · intro h r hr hc
    exact h r.slot_index (mem_avail.2 ⟨r, hr, hc.1, hc.2, rfl⟩)
  · intro h j hj
    obtain ⟨r, hr, h1, h2, _⟩ := mem_avail.1 hj
    exact h r hr ⟨h1, h2⟩

theorem getSlotFile_of_mem_avail {s : State} {j : Nat} (h : j ∈ availableSlotIndexes s) :
    ∃ row, getSlotFile s j = some row ∧ row ∈ s.slots ∧ row.slot_index = j := by
  obtain ⟨r, hr, _, _, hj⟩ := mem_avail.1 h
  unfold getSlotFile
  cases hf : s.slots.find? (fun r => r.slot_index == j) with
  | none =>
    rw [List.find?_eq_none] at hf
    have := hf r hr
    simp [hj] at this
  | some row =>
    exact ⟨row, rfl, List.mem_of_find?_eq_some hf, by simpa using List.find?_some hf⟩

theorem head_enqueue_tail {q : List String} {sid : String}
    (h : (enqueue q sid).head? = some sid) : (enqueue q sid).tail = q.tail := by
  unfold enqueue at h ⊢
  split
  · rfl
  · rename_i hn
    rw [if_neg hn] at h
    cases q with
    | nil => rfl
    | cons a t =>
      simp only [List.cons_append, List.head?_cons, Option.some.injEq] at h
      subst h
      simp at hn

theorem mem_enqueue (q : List String) (sid : String) : sid ∈ enqueue q sid := by
  unfold enqueue; split <;> simp [*]

/-- C3. In a state with an active round, if after enqueueing the caller is not the head of
the queue, or the lock has `until > now` and is held by another identity, `POST /api/spin`
answers `queued` with `position = queue.indexOf(sid) + 1` (the caller is in the queue, so this
is its 1-based index); the state afterwards is the state before with the queue replaced by the
enqueued queue, which is the old queue, or the old queue with the caller appended when the
caller was not in it. Slots, rounds, tokens, lock, cached results, timers and the broadcast
count are unchanged. -/
theorem C3_queued (cfg : Config) (s : State) (sid : String) (now : Int) (rnd : Rand)
    (token : String) (hround : getActiveRound s now ≠ none)
    (hcond : (enqueue s.queue sid).head? ≠ some sid ∨ heldByOther s sid now = true) :
    (apiSpin cfg s sid now rnd token).2 =
      Outcome.Queued ((enqueue s.queue sid).indexOf sid + 1) (max0 (s.lock.until_ - now)) ∧
    sid ∈ enqueue s.queue sid ∧
    (apiSpin cfg s sid now rnd token).1 = { s with queue := enqueue s.queue sid } ∧
    (enqueue s.queue sid = s.queue ∨ (sid ∉ s.queue ∧ enqueue s.queue sid = s.queue ++ [sid])) := by
  obtain ⟨r, hr⟩ := Option.ne_none_iff_exists'.1 hround
  refine ⟨?_, mem_enqueue _ _, ?_, ?_⟩
  · unfold apiSpin
    simp only [expire_of_active hr, hr]
    split
    · rename_i h1
      simp only [Bool.and_eq_true, decide_eq_true_eq] at h1
      simp only [Outcome.Queued.injEq, true_and]
      unfold max0
      rw [if_neg (by omega)]
    · rename_i h1
      split
      · rfl
      · rename_i h2
        exfalso
        simp only [Bool.not_eq_true', decide_eq_false_iff_not, not_not] at h2
        rcases hcond with hc | hc
        · exact hc h2
        · exact h1 hc
  · unfold apiSpin
    simp only [expire_of_active hr, hr]
    split
    · rfl
    · rename_i h1
      split
      · rfl
      · rename_i h2
        exfalso
        simp only [Bool.not_eq_true', decide_eq_false_iff_not, not_not] at h2
        rcases hcond with hc | hc
        · exact hc h2
        · exact h1 hc
  · unfold enqueue
    split
    · exact Or.inl rfl
    · rename_i h; exact Or.inr ⟨h, rfl⟩

theorem getActiveRound_none_of_expired {s : State} {now : Int}
    (h : ∀ r ∈ s.rounds, r.active = true → r.expires_at ≤ now) : getActiveRound s now = none := by
  unfold getActiveRound
  split
  · rfl
  · rename_i row hrow
    have := selectActiveRound_some hrow
    rw [if_pos (h row this.1 this.2)]

theorem expire_cases (s : State) (now : Int) :
    (expireRoundIfNeeded s now = s) ∨
    ∃ row, selectActiveRound s.rounds = some row ∧ row.expires_at ≤ now ∧
      expireRoundIfNeeded s now =
        { s with
          rounds := s.rounds.map fun r => if r.id = row.id then { r with active := false } else r
          slots := wipeSlots s.slots
          downloads := []
          queue := []
          lock := { sessionId := none, until_ := 0 }
          activeSpinResult := []
          broadcasts := s.broadcasts + 1 } := by
  cases h : selectActiveRound s.rounds with
  | none => left; simp [expireRoundIfNeeded, h]
  | some row =>
    by_cases hexp : row.expires_at ≤ now
    · right; exact ⟨row, rfl, hexp, expire_reset h hexp⟩
    · left
      unfold expireRoundIfNeeded
      simp only [h]
      rw [if_pos (by omega)]

theorem apiSpinAt_same (cfg : Config) (s : State) (sid : String) (now : Int) (rnd : Rand)
    (token : String) :
    apiSpinAt cfg s sid now now rnd token = apiSpin cfg s sid now rnd token := rfl

theorem expire_of_not_due {s : State} {t : Int} {row : Round}
    (h : selectActiveRound s.rounds = some row) (hlt : t < row.expires_at) :
    expireRoundIfNeeded s t = s := by
  unfold expireRoundIfNeeded
  simp only [h]
  rw [if_pos (by omega)]

/-- C8 (amended). The handler reads the clock twice before it answers: `tExpire` inside
`expireRoundIfNeeded` and `now` inside `getActiveRound`. If every active row of `rounds` has
`expires_at <= now` (there is no active round row, or the active round has expired),
`POST /api/spin` answers `NO_ACTIVE_ROUND`; the caller is not enqueued, no slot is claimed and
no token is minted. With no active row the state is unchanged. With an active round that had
already expired at the first read (`expires_at <= tExpire`) the state afterwards is reset
(empty queue, unheld lock, no cached result, no claim, empty `downloads`), and when that round
was the only active row, no row of `rounds` is active afterwards. With an active round that
expires only between the two reads (`tExpire < expires_at <= now`) the state is unchanged.
When both reads return the same value the handler is `apiSpin`. -/
theorem C8_no_active_round (cfg : Config) (s : State) (sid : String) (tExpire now : Int)
    (rnd : Rand) (token : String)
    (hexp : ∀ r ∈ s.rounds, r.active = true → r.expires_at ≤ now) :
    (apiSpinAt cfg s sid tExpire now rnd token).2 = Outcome.NoActiveRound ∧
    (∀ x ∈ (apiSpinAt cfg s sid tExpire now rnd token).1.queue, x ∈ s.queue) ∧
    (∀ d ∈ (apiSpinAt cfg s sid tExpire now rnd token).1.downloads, d ∈ s.downloads) ∧
    (∀ r ∈ (apiSpinAt cfg s sid tExpire now rnd token).1.slots, r.claimed = true → r ∈ s.slots) ∧
    ((∀ r ∈ s.rounds, r.active = false) → (apiSpinAt cfg s sid tExpire now rnd token).1 = s) ∧
    (∀ row, selectActiveRound s.rounds = some row → row.expires_at ≤ tExpire →
      IsReset (apiSpinAt cfg s sid tExpire now rnd token).1 ∧
      ((∀ r1 ∈ s.rounds, ∀ r2 ∈ s.rounds, r1.active = true → r2.active = true → r1.id = r2.id) →
        ∀ r ∈ (apiSpinAt cfg s sid tExpire now rnd token).1.rounds, r.active = false)) ∧
    (∀ row, selectActiveRound s.rounds = some row → tExpire < row.expires_at →
      (apiSpinAt cfg s sid tExpire now rnd token).1 = s) ∧
    apiSpinAt cfg s sid now now rnd token = apiSpin cfg s sid now rnd token := by
  have hspin : apiSpinAt cfg s sid tExpire now rnd token =
      (expireRoundIfNeeded s tExpire, Outcome.NoActiveRound) := by
    have hnone : getActiveRound (expireRoundIfNeeded s tExpire) now = none := by
      apply getActiveRound_none_of_expired
      rcases expire_cases s tExpire with h | ⟨row, _, _, h⟩
      · rw [h]; exact hexp
      · rw [h]
        simp only [List.mem_map, forall_exists_index, and_imp]
        intro r x hx hxr hact
        subst hxr
        by_cases hid : x.id = row.id
        · simp [hid] at hact
        · simp only [if_neg hid] at hact ⊢
          exact hexp x hx hact
    unfold apiSpinAt
    simp only [hnone]
  rw [hspin]
  refine ⟨rfl, ?_, ?_, ?_, ?_, ?_, ?_, rfl⟩
  · rcases expire_cases s tExpire with h | ⟨row, _, _, h⟩ <;> rw [h]
    · exact fun _ hx => hx
    · simp
  · rcases expire_cases s tExpire with h | ⟨row, _, _, h⟩ <;> rw [h]
    · exact fun _ hd => hd
    · simp
  · rcases expire_cases s tExpire with h | ⟨row, _, _, h⟩ <;> rw [h]
    · exact fun _ hr _ => hr
    · simp [wipeSlots]
  · intro hall
    unfold expireRoundIfNeeded
    rw [selectActiveRound_none.2 hall]
  · intro row hrow hle
    have hsome := selectActiveRound_some hrow
    rw [expire_reset hrow hle]
    refine ⟨by simp [IsReset, wipeSlots], ?_⟩
    intro huniq r hr
    simp only [List.mem_map] at hr
    obtain ⟨x, hx, rfl⟩ := hr
    split
    · rfl
    · rename_i hne
      by_contra hact
      simp only [Bool.not_eq_false] at hact
      exact hne (huniq x hx row hsome.1 hact hsome.2)
  · intro row hrow hlt
    exact expire_of_not_due hrow hlt

theorem lock_guard_false {s : State} {sid : String} {now : Int} (q : List String)
    (hlock : heldByOther s sid now = false) :
    (({ s with queue := q }.lock.sessionId.isSome && decide ({ s with queue := q }.lock.until_ > now))
      && decide ({ s with queue := q }.lock.sessionId ≠ some sid)) = false := hlock

theorem mapHas_false_of_get {m : List (String × SpinResult)} {k : String}
    (h : mapGet m k = none) : mapHas m k = false := by
  unfold mapGet at h
  unfold mapHas
  simp only [Option.map_eq_none', List.find?_eq_none] at h
  simp only [List.any_eq_false]
  exact h

theorem mapGet_mapSet {m : List (String × SpinResult)} {k : String} (v : SpinResult)
    (h : mapGet m k = none) : mapGet (mapSet m k v) k = some v := by
  have h2 := mapHas_false_of_get h
  unfold mapSet
  simp only [h2, Bool.false_eq_true, if_false]
  unfold mapGet at h ⊢
  simp only [Option.map_eq_none'] at h
  simp [List.find?_append, h]

/-- C9 (amended). In a state with an active round in which no slot row is both populated
(`filename` not null) and unclaimed, when the caller is the head of the queue after enqueueing,
has no cached draw result, and the lock is not held unexpired by another identity,
`POST /api/spin` answers `NO_PRIZES_LEFT`; the queue afterwards is the old queue without its
head (the caller, unless the old queue was empty), one state broadcast is emitted, and slots,
rounds, tokens, lock, cached results and timers are unchanged. -/
theorem C9_no_prizes_left (cfg : Config) (s : State) (sid : String) (now : Int) (rnd : Rand)
    (token : String) (hround : getActiveRound s now ≠ none)
    (havail : ∀ r ∈ s.slots, ¬ (r.filename.isSome = true ∧ r.claimed = false))
    (hhead : (enqueue s.queue sid).head? = some sid)
    (hcache : mapGet s.activeSpinResult sid = none)
    (hlock : heldByOther s sid now = false) :
    apiSpin cfg s sid now rnd token =
      ({ s with queue := s.queue.tail, broadcasts := s.broadcasts + 1 }, Outcome.NoPrizesLeft) ∧
    (s.queue = [] ∨ s.queue.head? = some sid) := by
  obtain ⟨r, hr⟩ := Option.ne_none_iff_exists'.1 hround
  have hav : availableSlotIndexes { s with queue := enqueue s.queue sid } = [] :=
    avail_eq_nil.2 havail
  constructor
  · unfold apiSpin
    simp only [expire_of_active hr, hr, lock_guard_false _ hlock, hhead, hcache, hav]
    simp [broadcastState, head_enqueue_tail hhead]
  · unfold enqueue at hhead
    split at hhead
    · exact Or.inr hhead
    · rename_i hn
      left
      cases hq : s.queue with
      | nil => rfl
      | cons a t =>
        rw [hq] at hhead hn
        simp only [List.cons_append, List.head?_cons, Option.some.injEq] at hhead
        subst hhead
        simp at hn

theorem pick_lt {rnd : Rand} (h : rnd.num < rnd.den) (n : Nat) : rnd.num * n / rnd.den < n ∨ n = 0 := by
  rcases Nat.eq_zero_or_pos n with h0 | hpos
  · exact Or.inr h0
  · left
    rw [Nat.div_lt_iff_lt_mul (by omega)]
    rw [Nat.mul_comm n]
    exact Nat.mul_lt_mul_of_pos_right h hpos

theorem any_token_false {ds : List Download} {token : String}
    (h : ∀ d ∈ ds, d.token ≠ token) : ds.any (fun d => d.token == token) = false := by
  simp only [List.any_eq_false, beq_iff_eq]
  exact h

/-- C10 (amended). In a state with an active round where the caller is the head of the queue
after enqueueing, has no cached result, the lock is not held unexpired by another identity, the
available set (populated and unclaimed slots, ascending) is non-empty, the random value
`num / den` lies in `[0, 1)` and the generated token is not yet a key of `downloads`:
`POST /api/spin` answers `Won` with `slotIndex = avail[floor(random * avail.length)]`, a member
of the available set, the generated token, and the name of that slot's row (its original name,
or `slot_<slotIndex+1>` when that is null or empty). Afterwards every row with that index has
`claimed = 1` and `claimed_at = now` and all other rows are unchanged, `downloads` has exactly
one new row `(token, slotIndex, caller, now)`, the lock is `(caller, now + SPIN_LOCK_MS)`, the
cached result of the caller is the returned payload, the queue is the enqueued queue, the
rounds are unchanged, one release timer is scheduled and one broadcast emitted. -/
theorem C10_won (cfg : Config) (s : State) (sid : String) (now : Int) (rnd : Rand)
    (token : String) (hround : getActiveRound s now ≠ none)
    (hhead : (enqueue s.queue sid).head? = some sid)
    (hcache : mapGet s.activeSpinResult sid = none)
    (hlock : heldByOther s sid now = false)
    (havail : availableSlotIndexes s ≠ [])
    (hrnd : rnd.num < rnd.den)
    (hfresh : ∀ d ∈ s.downloads, d.token ≠ token) :
    ∃ slotIndex row name,
      (availableSlotIndexes s).get? (rnd.num * (availableSlotIndexes s).length / rnd.den)
        = some slotIndex ∧
      slotIndex ∈ availableSlotIndexes s ∧
      getSlotFile s slotIndex = some row ∧
      ((∃ n, row.original_name = some n ∧ n ≠ "" ∧ name = n) ∨
        ((row.original_name = none ∨ row.original_name = some "") ∧
          name = "slot_" ++ toString (slotIndex + 1))) ∧
      (apiSpin cfg s sid now rnd token).2 =
        Outcome.Won slotIndex token name false (max0 cfg.SPIN_LOCK_MS) ∧
      (apiSpin cfg s sid now rnd token).1.slots =
        s.slots.map (fun r =>
          if r.slot_index = slotIndex then { r with claimed := true, claimed_at := some now }
          else r) ∧
      (apiSpin cfg s sid now rnd token).1.downloads =
        s.downloads ++
          [{ token := token, slot_index := slotIndex, session_id := sid, created_at := now }] ∧
      (apiSpin cfg s sid now rnd token).1.lock =
        { sessionId := some sid, until_ := now + cfg.SPIN_LOCK_MS } ∧
      mapGet (apiSpin cfg s sid now rnd token).1.activeSpinResult sid =
        some { slotIndex := slotIndex, token := token, name := name } ∧
      (apiSpin cfg s sid now rnd token).1.queue = enqueue s.queue sid ∧
      (apiSpin cfg s sid now rnd token).1.rounds = s.rounds ∧
      (apiSpin cfg s sid now rnd token).1.timers =
        s.timers ++ [{ sid := sid, due := now + (cfg.SPIN_LOCK_MS + 50) }] ∧
      (apiSpin cfg s sid now rnd token).1.broadcasts = s.broadcasts + 1 := by
  obtain ⟨r, hr⟩ := Option.ne_none_iff_exists'.1 hround
  have hlen : (availableSlotIndexes s).length ≠ 0 := by
    simpa [List.length_eq_zero] using havail
  have hidx : rnd.num * (availableSlotIndexes s).length / rnd.den
      < (availableSlotIndexes s).length := by
    rcases pick_lt hrnd (availableSlotIndexes s).length with h | h
    · exact h
    · exact absurd h hlen
  obtain ⟨slotIndex, hget⟩ : ∃ i, (availableSlotIndexes s).get? (rnd.num *
      (availableSlotIndexes s).length / rnd.den) = some i :=
    ⟨_, List.get?_eq_get hidx⟩
  have hmem : slotIndex ∈ availableSlotIndexes s := List.get?_mem hget
  obtain ⟨row, hrow, _, _⟩ := getSlotFile_of_mem_avail hmem
  have hav : availableSlotIndexes { s with queue := enqueue s.queue sid }
      = availableSlotIndexes s := rfl
  have hslot : ∀ (l : Lock), getSlotFile { s with queue := enqueue s.queue sid, lock := l }
      slotIndex = some row := fun _ => hrow
  have hspin : apiSpin cfg s sid now rnd token =
      (broadcastState
        { s with
          queue := enqueue s.queue sid
          lock := { sessionId := some sid, until_ := now + cfg.SPIN_LOCK_MS }
          slots := claimSlot s.slots now slotIndex
          downloads := s.downloads ++
            [{ token := token, slot_index := slotIndex, session_id := sid, created_at := now }]
          activeSpinResult := mapSet s.activeSpinResult sid
            { slotIndex := slotIndex, token := token, name := displayName row slotIndex }
          timers := s.timers ++ [{ sid := sid, due := now + (cfg.SPIN_LOCK_MS + 50) }] },
        Outcome.Won slotIndex token (displayName row slotIndex) false
          (max0 (now + cfg.SPIN_LOCK_MS - now))) := by
    unfold apiSpin
    simp only [expire_of_active hr, hr, lock_guard_false _ hlock, hhead, hcache, hav, hlen,
      hget, hslot, any_token_false hfresh]
    simp
  refine ⟨slotIndex, row, displayName row slotIndex, hget, hmem, hrow, ?_, ?_⟩
  · unfold displayName
    cases hn : row.original_name with
    | none => right; simp [truthy]
    | some n =>
      by_cases he : n = ""
      · right; simp [truthy, he]
      · left; exact ⟨n, rfl, he, by simp [truthy, he]⟩
  · rw [hspin]
    refine ⟨?_, rfl, rfl, rfl, ?_, rfl, rfl, rfl, rfl⟩
    · simp
    · exact mapGet_mapSet _ hcache

theorem apiSpin_not_head (cfg : Config) (s : State) (sid : String) (now : Int) (rnd : Rand)
    (token : String) (hround : getActiveRound s now ≠ none)
    (hhead : (enqueue s.queue sid).head? ≠ some sid) :
    (apiSpin cfg s sid now rnd token).1 = { s with queue := enqueue s.queue sid } := by
  obtain ⟨r, hr⟩ := Option.ne_none_iff_exists'.1 hround
  unfold apiSpin
  simp only [expire_of_active hr, hr]
  split
  · rfl
  · split
    · rfl
    · rename_i h2
      simp only [Bool.not_eq_true', decide_eq_false_iff_not, not_not] at h2
      exact absurd h2 hhead

theorem enqueue_of_head {q : List String} {sid : String} (h : q.head? = some sid) :
    enqueue q sid = q := by
  unfold enqueue
  rw [if_pos (List.mem_of_mem_head? h)]

/-- C2 (amended). A `Won` outcome for identity `A` that is not a repeat leaves `A` holding the
lock, at the head of the queue, with the returned payload cached. From every state in which
`A` holds the lock, is the head of the queue and has that payload cached, and in which the
round is still active at the time of the call, a further `POST /api/spin` by `A` returns the
same slot index, token and name with `already = true` and leaves the whole state (slot claims,
tokens, queue, lock, cached results, rounds, timers) unchanged. Calls of other identities while
the round is active keep `A` in that position: they change nothing but the tail of the
queue. -/
theorem C2_repeat_under_lock (cfg : Config) (s0 s1 : State) (A : String) (now0 : Int)
    (rnd0 : Rand) (token0 : String) (slotIndex : Nat) (tok name : String) (ms : Int)
    (hwon : apiSpin cfg s0 A now0 rnd0 token0 =
      (s1, Outcome.Won slotIndex tok name false ms)) :
    (s1.lock = { sessionId := some A, until_ := now0 + cfg.SPIN_LOCK_MS } ∧
      s1.queue.head? = some A ∧
      mapGet s1.activeSpinResult A = some { slotIndex := slotIndex, token := tok, name := name }) ∧
    ∀ (s : State) (now : Int) (rnd : Rand) (token : String),
      s.lock.sessionId = some A → s.queue.head? = some A →
      mapGet s.activeSpinResult A = some { slotIndex := slotIndex, token := tok, name := name } →
      getActiveRound s now ≠ none →
      apiSpin cfg s A now rnd token =
        (s, Outcome.Won slotIndex tok name true (max0 (s.lock.until_ - now))) ∧
      ∀ B : String, B ≠ A →
        (apiSpin cfg s B now rnd token).1 = { s with queue := enqueue s.queue B } ∧
        (enqueue s.queue B).head? = some A := by
  constructor
  · unfold apiSpin at hwon
    simp only at hwon
    split at hwon
    · simp at hwon
    · split at hwon
      · simp at hwon
      · split at hwon
        · simp at hwon
        · rename_i hturn
          simp only [Bool.not_eq_true', decide_eq_false_iff_not, not_not] at hturn
          split at hwon
          · simp at hwon
          · rename_i hcache
            split at hwon
            · simp at hwon
            · split at hwon
              · simp at hwon
              · split at hwon
                · simp at hwon
                · split at hwon
                  · simp at hwon
                  · simp only [Prod.mk.injEq, Outcome.Won.injEq, true_and] at hwon
                    obtain ⟨hs, h1, h2, h3, _⟩ := hwon
                    subst hs h1 h2 h3
                    refine ⟨rfl, hturn, ?_⟩
                    exact mapGet_mapSet _ hcache
  · intro s now rnd token hl hh hc hround
    obtain ⟨r, hr⟩ := Option.ne_none_iff_exists'.1 hround
    have hs : { s with queue := s.queue } = s := rfl
    constructor
    · unfold apiSpin
      simp only [expire_of_active hr, hr, enqueue_of_head hh, hs, hl, hh, hc]
      simp
    · intro B hB
      have hhead : (enqueue s.queue B).head? = some A := by
        unfold enqueue
        split
        · exact hh
        · cases hq : s.queue with
          | nil => rw [hq] at hh; simp at hh
          | cons a q => rw [hq] at hh; simpa using hh
      refine ⟨apiSpin_not_head cfg s B now rnd token hround ?_, hhead⟩
      rw [hhead]
      simpa using fun e : A = B => hB e.symm

/-- All effects of one `POST /api/spin` on queue, slots and tokens, by outcome, relative to the
state `expireRoundIfNeeded` leaves. -/
theorem apiSpin_effect (cfg : Config) (s : State) (sid : String) (now : Int) (rnd : Rand)
    (token : String) (p : State × Outcome) (hp : apiSpin cfg s sid now rnd token = p) :
    (p.2 = Outcome.NoActiveRound ∧ p.1 = expireRoundIfNeeded s now) ∨
    ((p.1.queue = enqueue (expireRoundIfNeeded s now).queue sid ∨
        (p.1.queue = (enqueue (expireRoundIfNeeded s now).queue sid).tail ∧
          (enqueue (expireRoundIfNeeded s now).queue sid).head? = some sid)) ∧
      (((∀ i t n l, p.2 ≠ Outcome.Won i t n false l) ∧
          p.1.downloads = (expireRoundIfNeeded s now).downloads ∧
          (p.1.slots = (expireRoundIfNeeded s now).slots ∨
            ∃ i ∈ availableSlotIndexes (expireRoundIfNeeded s now),
              p.1.slots = claimSlot (expireRoundIfNeeded s now).slots now i)) ∨
        ∃ i ∈ availableSlotIndexes (expireRoundIfNeeded s now), ∃ n l,
          p.2 = Outcome.Won i token n false l ∧
          p.1.slots = claimSlot (expireRoundIfNeeded s now).slots now i ∧
          p.1.downloads = (expireRoundIfNeeded s now).downloads ++
              [{ token := token, slot_index := i, session_id := sid, created_at := now }])) := by
  unfold apiSpin at hp
  simp only at hp
  generalize expireRoundIfNeeded s now = s0 at hp ⊢
  split at hp
  · left; subst hp; exact ⟨rfl, rfl⟩
  · right
    split at hp
    · subst hp; exact ⟨Or.inl rfl, Or.inl ⟨by simp, rfl, Or.inl rfl⟩⟩
    · split at hp
      · subst hp; exact ⟨Or.inl rfl, Or.inl ⟨by simp, rfl, Or.inl rfl⟩⟩
      · rename_i hturn
        simp only [Bool.not_eq_true', decide_eq_false_iff_not, not_not] at hturn
        split at hp
        · subst hp; exact ⟨Or.inl rfl, Or.inl ⟨by simp, rfl, Or.inl rfl⟩⟩
        · split at hp
          · subst hp
            refine ⟨Or.inr ⟨?_, hturn⟩, Or.inl ⟨by simp, ?_, Or.inl ?_⟩⟩
            · simp [broadcastState, hturn]
            · simp only [broadcastState]
            · simp only [broadcastState]
          · split at hp
            · subst hp; exact ⟨Or.inl rfl, Or.inl ⟨by simp, rfl, Or.inl rfl⟩⟩
            · rename_i slotIndex hget
              have hmem : slotIndex ∈ availableSlotIndexes s0 := List.get?_mem hget
              split at hp
              · subst hp
                exact ⟨Or.inl rfl, Or.inl ⟨by simp, rfl, Or.inr ⟨slotIndex, hmem, rfl⟩⟩⟩
              · split at hp
                · rename_i hnone
                  exfalso
                  obtain ⟨row, hrow, _⟩ := getSlotFile_of_mem_avail hmem
                  have : getSlotFile s0 slotIndex = none := hnone
                  rw [hrow] at this
                  simp at this
                · subst hp
                  exact ⟨Or.inl rfl, Or.inr ⟨slotIndex, hmem, _, _, rfl, rfl, rfl⟩⟩

theorem drop_le_one_indexOf (l : List String) (k : Nat) (hk : k ≤ 1) (hnd : l.Nodup) :
    (l.drop k).Nodup ∧ ∀ x ∈ l.drop k, (l.drop k).indexOf x + k = l.indexOf x := by
  interval_cases k
  · simp [hnd]
  · cases l with
    | nil => simp
    | cons a t =>
      simp only [List.drop_succ_cons, List.drop_zero]
      rw [List.nodup_cons] at hnd
      refine ⟨hnd.2, fun x hx => ?_⟩
      have hne : a ≠ x := fun e => hnd.1 (e ▸ hx)
      rw [List.indexOf_cons_ne _ hne]

theorem releaseLockFor_queue (s : State) (x : String) :
    (releaseLockFor s x).queue = if s.queue.head? = some x then s.queue.tail else s.queue := by
  unfold releaseLockFor broadcastState
  simp only
  split <;> split <;> simp_all

theorem expire_queue (s : State) (now : Int) :
    (expireRoundIfNeeded s now).queue = s.queue ∨
    ((∃ row, selectActiveRound s.rounds = some row ∧ row.expires_at ≤ now) ∧
      (expireRoundIfNeeded s now).queue = []) := by
  rcases expire_cases s now with h | ⟨row, hrow, hle, h⟩
  · left; rw [h]
  · right; exact ⟨⟨row, hrow, hle⟩, by rw [h]⟩

theorem spin_queue_shape (cfg : Config) (s : State) (sid : String) (now : Int) (rnd : Rand)
    (token : String) :
    ∃ k app, k ≤ 1 ∧
      (app = [] ∨ (app = [sid] ∧ sid ∉ (expireRoundIfNeeded s now).queue)) ∧
      (apiSpin cfg s sid now rnd token).1.queue =
        ((expireRoundIfNeeded s now).queue ++ app).drop k := by
  have henq : ∃ app, (app = [] ∨ (app = [sid] ∧ sid ∉ (expireRoundIfNeeded s now).queue)) ∧
      enqueue (expireRoundIfNeeded s now).queue sid = (expireRoundIfNeeded s now).queue ++ app := by
    unfold enqueue
    split
    · exact ⟨[], Or.inl rfl, by simp⟩
    · rename_i h; exact ⟨[sid], Or.inr ⟨rfl, h⟩, rfl⟩
  obtain ⟨app, happ, happ2⟩ := henq
  rcases apiSpin_effect cfg s sid now rnd token _ rfl with ⟨_, h⟩ | ⟨h | ⟨h, _⟩, _⟩
  · exact ⟨0, [], by omega, Or.inl rfl, by rw [h]; simp⟩
  · exact ⟨0, app, by omega, happ, by rw [h, happ2]; simp⟩
  · exact ⟨1, app, by omega, happ, by rw [h, happ2]; simp⟩

theorem fireTimer_queue (s : State) (j : Nat) :
    ∃ k, k ≤ 1 ∧ (fireTimer s j).queue = s.queue.drop k := by
  unfold fireTimer
  split
  · exact ⟨0, by omega, rfl⟩
  · rw [releaseLockFor_queue]
    simp only
    split
    · exact ⟨1, by omega, by simp⟩
    · exact ⟨0, by omega, rfl⟩

theorem order_kept (q q' app : List String) (k : Nat) (hnd : (q ++ app).Nodup)
    (hk : k ≤ 1) (hq : q' = (q ++ app).drop k) :
    q'.Nodup ∧ (∀ x ∈ q', q'.indexOf x + k = (q ++ app).indexOf x) ∧
    ∀ x y, x ∈ q → y ∈ q → x ∈ q' → y ∈ q' →
      (q.indexOf x < q.indexOf y ↔ q'.indexOf x < q'.indexOf y) := by
  subst hq
  obtain ⟨h1, h2⟩ := drop_le_one_indexOf (q ++ app) k hk hnd
  refine ⟨h1, h2, fun x y hx hy hx' hy' => ?_⟩
  have ex := h2 x hx'
  have ey := h2 y hy'
  rw [List.indexOf_append_of_mem hx] at ex
  rw [List.indexOf_append_of_mem hy] at ey
  omega

/-- C4 (amended). `POST /api/spin` first runs the expiry check, which leaves the queue as it
was, or empties it when it finds the active round expired. The queue after the call is the
queue the expiry check left, with at most one identity appended at the tail (the caller, and
only when it was not in the queue) and then at most the head removed. When that queue had no
duplicates, the queue after has none, every identity still queued has moved up by exactly the
number of heads removed (0 or 1), and two identities queued before and after keep their
relative order; a call from an identity already queued appends nothing. `releaseLockFor` and a
release timer firing remove at most the head and keep the order of the rest. -/
theorem C4_queue_fifo (cfg : Config) (s : State) (sid : String) (now : Int) (rnd : Rand)
    (token : String) :
    ((expireRoundIfNeeded s now).queue = s.queue ∨
      ((∃ row, selectActiveRound s.rounds = some row ∧ row.expires_at ≤ now) ∧
        (expireRoundIfNeeded s now).queue = [])) ∧
    (∃ k app, k ≤ 1 ∧
      (app = [] ∨ (app = [sid] ∧ sid ∉ (expireRoundIfNeeded s now).queue)) ∧
      (apiSpin cfg s sid now rnd token).1.queue =
        ((expireRoundIfNeeded s now).queue ++ app).drop k ∧
      ((expireRoundIfNeeded s now).queue.Nodup →
        (apiSpin cfg s sid now rnd token).1.queue.Nodup ∧
        (∀ x ∈ (apiSpin cfg s sid now rnd token).1.queue,
          (apiSpin cfg s sid now rnd token).1.queue.indexOf x + k =
            ((expireRoundIfNeeded s now).queue ++ app).indexOf x) ∧
        ∀ x y, x ∈ (expireRoundIfNeeded s now).queue → y ∈ (expireRoundIfNeeded s now).queue →
          x ∈ (apiSpin cfg s sid now rnd token).1.queue →
          y ∈ (apiSpin cfg s sid now rnd token).1.queue →
          ((expireRoundIfNeeded s now).queue.indexOf x < (expireRoundIfNeeded s now).queue.indexOf y
            ↔ (apiSpin cfg s sid now rnd token).1.queue.indexOf x <
                (apiSpin cfg s sid now rnd token).1.queue.indexOf y))) ∧
    (sid ∈ (expireRoundIfNeeded s now).queue →
      ∃ k, k ≤ 1 ∧ (apiSpin cfg s sid now rnd token).1.queue =
        (expireRoundIfNeeded s now).queue.drop k) ∧
    (∀ x, ∃ k, k ≤ 1 ∧ (releaseLockFor s x).queue = s.queue.drop k) ∧
    (∀ j, ∃ k, k ≤ 1 ∧ (fireTimer s j).queue = s.queue.drop k) ∧
    (s.queue.Nodup → ∀ q', (∃ k, k ≤ 1 ∧ q' = s.queue.drop k) →
      q'.Nodup ∧ ∀ x y, x ∈ q' → y ∈ q' →
        (s.queue.indexOf x < s.queue.indexOf y ↔ q'.indexOf x < q'.indexOf y)) := by
  refine ⟨expire_queue s now, ?_, ?_, ?_, fireTimer_queue s, ?_⟩
  · obtain ⟨k, app, hk, happ, hq⟩ := spin_queue_shape cfg s sid now rnd token
    refine ⟨k, app, hk, happ, hq, fun hnd => ?_⟩
    have hnd2 : ((expireRoundIfNeeded s now).queue ++ app).Nodup := by
      rcases happ with rfl | ⟨rfl, hn⟩
      · simpa using hnd
      · rw [List.nodup_append]
        refine ⟨hnd, by simp, ?_⟩
        intro a ha hb
        simp only [List.mem_singleton] at hb
        exact hn (hb ▸ ha)
    exact order_kept _ _ app k hnd2 hk hq
  · intro hmem
    obtain ⟨k, app, hk, happ, hq⟩ := spin_queue_shape cfg s sid now rnd token
    rcases happ with rfl | ⟨_, hn⟩
    · exact ⟨k, hk, by simpa using hq⟩
    · exact absurd hmem hn
  · intro x
    rw [releaseLockFor_queue]
    split
    · exact ⟨1, by omega, by simp⟩
    · exact ⟨0, by omega, rfl⟩
  · rintro hnd q' ⟨k, hk, rfl⟩
    have h := order_kept s.queue (s.queue.drop k) [] k (by simpa using hnd) hk (by simp)
    refine ⟨h.1, fun x y hx hy => h.2.2 x y ?_ ?_ hx hy⟩
    · exact List.mem_of_mem_drop hx
    · exact List.mem_of_mem_drop hy

theorem avail_congr {s s' : State} (h : s'.slots = s.slots) :
    availableSlotIndexes s' = availableSlotIndexes s := by
  unfold availableSlotIndexes; rw [h]

theorem avail_wipe {s s' : State} (h : s'.slots = wipeSlots s.slots) :
    availableSlotIndexes s' = [] := by
  rw [avail_eq_nil, h]
  intro r hr
  simp only [wipeSlots, List.mem_map] at hr
  obtain ⟨x, _, rfl⟩ := hr
  simp

theorem mem_avail_claim {s s' : State} {now : Int} {i j : Nat}
    (h : s'.slots = claimSlot s.slots now i) :
    j ∈ availableSlotIndexes s' ↔ j ∈ availableSlotIndexes s ∧ j ≠ i := by
  rw [mem_avail, mem_avail, h]
  simp only [claimSlot, List.mem_map]
  constructor
  · rintro ⟨r, ⟨x, hx, rfl⟩, h1, h2, h3⟩
    by_cases hxi : x.slot_index = i
    · simp [hxi] at h2
    · simp only [if_neg hxi] at h1 h2 h3
      exact ⟨⟨x, hx, h1, h2, h3⟩, fun e => hxi (h3.trans e)⟩
  · rintro ⟨⟨x, hx, h1, h2, h3⟩, hne⟩
    have hxi : ¬ x.slot_index = i := fun e => hne (h3.symm.trans e)
    exact ⟨x, ⟨x, hx, by simp [hxi]⟩, h1, h2, h3⟩

theorem claimed_after_claim {s s' : State} {now : Int} {i : Nat}
    (h : s'.slots = claimSlot s.slots now i) :
    ∀ r ∈ s'.slots, r.slot_index = i → r.claimed = true ∧ r.claimed_at = some now := by
  rw [h]
  intro r hr hi
  simp only [claimSlot, List.mem_map] at hr
  obtain ⟨x, _, rfl⟩ := hr
  by_cases hxi : x.slot_index = i
  · simp [hxi]
  · simp only [if_neg hxi] at hi; exact absurd hi hxi

theorem exists_after_claim {s s' : State} {now : Int} {i : Nat}
    (h : s'.slots = claimSlot s.slots now i) (hi : i ∈ availableSlotIndexes s) :
    ∃ r ∈ s'.slots, r.slot_index = i := by
  obtain ⟨x, hx, _, _, hxi⟩ := mem_avail.1 hi
  rw [h]
  refine ⟨{ x with claimed := true, claimed_at := some now }, ?_, hxi⟩
  simp only [claimSlot, List.mem_map]
  exact ⟨x, hx, by simp [hxi]⟩

theorem expire_slots_downloads (s : State) (now : Int) :
    ((expireRoundIfNeeded s now).slots = s.slots ∧
      (expireRoundIfNeeded s now).downloads = s.downloads) ∨
    ((expireRoundIfNeeded s now).slots = wipeSlots s.slots ∧
      (expireRoundIfNeeded s now).downloads = []) := by
  rcases expire_cases s now with h | ⟨row, _, _, h⟩
  · left; rw [h]; exact ⟨rfl, rfl⟩
  · right; rw [h]; exact ⟨rfl, rfl⟩

theorem expire_tokensDistinct {s : State} (now : Int) (h : TokensDistinct s) :
    TokensDistinct (expireRoundIfNeeded s now) ∧
    ∀ j ∈ availableSlotIndexes (expireRoundIfNeeded s now), j ∈ availableSlotIndexes s := by
  rcases expire_slots_downloads s now with ⟨h1, h2⟩ | ⟨h1, h2⟩
  · unfold TokensDistinct
    rw [avail_congr h1, h2]
    exact ⟨h, fun _ hj => hj⟩
  · unfold TokensDistinct
    rw [avail_wipe h1, h2]
    simp

theorem fireTimer_slots_downloads (s : State) (k : Nat) :
    (fireTimer s k).slots = s.slots ∧ (fireTimer s k).downloads = s.downloads := by
  unfold fireTimer
  split
  · exact ⟨rfl, rfl⟩
  · unfold releaseLockFor broadcastState
    simp only
    split <;> split <;> exact ⟨rfl, rfl⟩

/-- One step that is not an operator action keeps `TokensDistinct`, never adds an available
slot, and a newly won slot was available before and is not available after. -/
theorem step_tokensDistinct (cfg : Config) (s : State) (e : Event)
    (he : e.isOperator = false) (h : TokensDistinct s) :
    TokensDistinct (step cfg s e).1 ∧
    (∀ j ∈ availableSlotIndexes (step cfg s e).1, j ∈ availableSlotIndexes s) ∧
    ∀ i t n l, (step cfg s e).2 = some (Outcome.Won i t n false l) →
      i ∈ availableSlotIndexes s ∧ i ∉ availableSlotIndexes (step cfg s e).1 ∧
      (∃ r ∈ (step cfg s e).1.slots, r.slot_index = i) ∧
      (∀ r ∈ (step cfg s e).1.slots, r.slot_index = i → r.claimed = true) := by
  cases e with
  | publish now => simp [Event.isOperator] at he
  | clear => simp [Event.isOperator] at he
  | upload slot file now => simp [Event.isOperator] at he
  | timer k =>
    have hf := fireTimer_slots_downloads s k
    simp only [step]
    refine ⟨?_, ?_, by simp⟩
    · unfold TokensDistinct; rw [avail_congr hf.1, hf.2]; exact h
    · rw [avail_congr hf.1]; exact fun _ hj => hj
  | sweep now =>
    simp only [step]
    exact ⟨(expire_tokensDistinct now h).1, (expire_tokensDistinct now h).2, by simp⟩
  | spin sid now rnd token =>
    simp only [step]
    obtain ⟨h0, hsub⟩ := expire_tokensDistinct now h
    rcases apiSpin_effect cfg s sid now rnd token _ rfl with
      ⟨ho, hs⟩ | ⟨_, ⟨hnw, hd, hsl | ⟨i, hi, hsl⟩⟩ | ⟨i, hi, n, l, ho, hsl, hd⟩⟩
    · rw [hs]
      refine ⟨h0, hsub, ?_⟩
      intro i t n l hw
      rw [ho] at hw
      simp at hw
    · refine ⟨?_, ?_, ?_⟩
      · unfold TokensDistinct; rw [avail_congr hsl, hd]; exact h0
      · rw [avail_congr hsl]; exact hsub
      · intro i t n l hw
        exact absurd (Option.some.inj hw) (hnw i t n l)
    · refine ⟨?_, ?_, ?_⟩
      · unfold TokensDistinct
        rw [hd]
        refine ⟨fun d hdm hc => h0.1 d hdm ((mem_avail_claim hsl).1 hc).1, h0.2⟩
      · intro j hj
        exact hsub j ((mem_avail_claim hsl).1 hj).1
      · intro i' t n l hw
        exact absurd (Option.some.inj hw) (hnw i' t n l)
    · refine ⟨?_, ?_, ?_⟩
      · unfold TokensDistinct
        rw [hd]
        constructor
        · intro d hdm hc
          rw [mem_avail_claim hsl] at hc
          rcases List.mem_append.1 hdm with hdm | hdm
          · exact h0.1 d hdm hc.1
          · simp only [List.mem_singleton] at hdm
            subst hdm
            exact hc.2 rfl
        · rw [List.map_append, List.nodup_append]
          refine ⟨h0.2, by simp, ?_⟩
          intro a ha hb
          simp only [List.map_cons, List.map_nil, List.mem_singleton] at hb
          subst hb
          obtain ⟨d, hdm, hdi⟩ := List.mem_map.1 ha
          exact h0.1 d hdm (hdi ▸ hi)
      · intro j hj
        exact hsub j ((mem_avail_claim hsl).1 hj).1
      · intro i' t n' l' hw
        rw [ho] at hw
        simp only [Option.some.injEq, Outcome.Won.injEq] at hw
        obtain ⟨rfl, _⟩ := hw
        refine ⟨hsub _ hi, fun hc => ((mem_avail_claim hsl).1 hc).2 rfl,
          exists_after_claim hsl hi, ?_⟩
        exact fun r hr hri => (claimed_after_claim hsl r hr hri).1

theorem wonSlot_eq {r : StepRecord} {i : Nat} (h : r.wonSlot = some i) :
    ∃ t n l, r.outcome = some (Outcome.Won i t n false l) := by
  unfold StepRecord.wonSlot at h
  split at h
  · simp only [Option.some.injEq] at h; subst h; exact ⟨_, _, _, by assumption⟩
  · simp at h

theorem run_tokensDistinct (cfg : Config) (evs : List Event) :
    ∀ s : State, TokensDistinct s → (∀ e ∈ evs, e.isOperator = false) →
      TokensDistinct (finalState cfg s evs) ∧
      (∀ i ∈ (runFrom cfg s evs).filterMap StepRecord.wonSlot, i ∈ availableSlotIndexes s) ∧
      ((runFrom cfg s evs).filterMap StepRecord.wonSlot).Nodup ∧
      ∀ rec ∈ runFrom cfg s evs, ∀ i, rec.wonSlot = some i →
        i ∈ availableSlotIndexes rec.before ∧ i ∉ availableSlotIndexes rec.after ∧
        (∃ r ∈ rec.after.slots, r.slot_index = i) ∧
        ∀ r ∈ rec.after.slots, r.slot_index = i → r.claimed = true := by
  induction evs with
  | nil => intro s h _; simp [finalState, runFrom, h]
  | cons e es ih =>
    intro s h hops
    have he : e.isOperator = false := hops e (List.mem_cons_self _ _)
    obtain ⟨h1, h2, h3⟩ := step_tokensDistinct cfg s e he h
    obtain ⟨i1, i2, i3, i4⟩ := ih (step cfg s e).1 h1
      (fun x hx => hops x (List.mem_cons_of_mem _ hx))
    refine ⟨i1, ?_, ?_, ?_⟩
    · intro i hi
      simp only [runFrom, List.filterMap_cons] at hi
      split at hi
      · exact h2 i (i2 i hi)
      · rename_i j hj
        rcases List.mem_cons.1 hi with rfl | hi
        · obtain ⟨t, n, l, ho⟩ := wonSlot_eq hj
          exact (h3 i t n l ho).1
        · exact h2 i (i2 i hi)
    · simp only [runFrom, List.filterMap_cons]
      split
      · exact i3
      · rename_i j hj
        obtain ⟨t, n, l, ho⟩ := wonSlot_eq hj
        rw [List.nodup_cons]
        exact ⟨fun hc => (h3 j t n l ho).2.1 (i2 j hc), i3⟩
    · intro rec hrec i hi
      simp only [runFrom] at hrec
      rcases List.mem_cons.1 hrec with rfl | hrec
      · obtain ⟨t, n, l, ho⟩ := wonSlot_eq hi
        exact h3 i t n l ho
      · exact i4 rec hrec i hi

theorem publish_tokensDistinct (cfg : Config) (s : State) (now : Int)
    (h : (adminPublish cfg s now).2 ≠ PublishOutcome.NO_VIDEOS) :
    TokensDistinct (adminPublish cfg s now).1 := by
  have hd : (adminPublish cfg s now).1.downloads = [] := by
    unfold adminPublish at h ⊢
    simp only at h ⊢
    split
    · rename_i hc; simp [hc] at h
    · rfl
  unfold TokensDistinct
  rw [hd]
  simp

/-- C1. Take any state, publish successfully, then run any sequence of `POST /api/spin` calls,
release-timer firings and expiry sweeps (no operator action). Then (1) the slot indices of the
`Won` outcomes that are not repeats are pairwise distinct; (2) for each such outcome, a row
with that index was populated and unclaimed in the state right before the call, and right
after the call the index is no longer available and every row with that index is claimed;
(3) in the state reached, the rows of `downloads` are bound to pairwise distinct slot
indices. -/
theorem C1_at_most_once_claim (cfg : Config) (s : State) (now : Int) (evs : List Event)
    (hpub : (adminPublish cfg s now).2 ≠ PublishOutcome.NO_VIDEOS)
    (hops : ∀ e ∈ evs, e.isOperator = false) :
    ((runFrom cfg (adminPublish cfg s now).1 evs).filterMap StepRecord.wonSlot).Nodup ∧
    (∀ rec ∈ runFrom cfg (adminPublish cfg s now).1 evs, ∀ i, rec.wonSlot = some i →
      (∃ r ∈ rec.before.slots, r.filename.isSome = true ∧ r.claimed = false ∧
        r.slot_index = i) ∧
      i ∉ availableSlotIndexes rec.after ∧
      (∃ r ∈ rec.after.slots, r.slot_index = i) ∧
      ∀ r ∈ rec.after.slots, r.slot_index = i → r.claimed = true) ∧
    ((finalState cfg (adminPublish cfg s now).1 evs).downloads.map (·.slot_index)).Nodup := by
  obtain ⟨h1, _, h3, h4⟩ :=
    run_tokensDistinct cfg evs _ (publish_tokensDistinct cfg s now hpub) hops
  refine ⟨h3, ?_, h1.2⟩
  intro rec hrec i hi
  obtain ⟨hb, ha, hex, hc⟩ := h4 rec hrec i hi
  exact ⟨mem_avail.1 hb, ha, hex, hc⟩

/-- Witness of C1 on the run `demoEvents` from `twoPublished`. -/
theorem C1_at_most_once_claim_witness :
    (adminPublish defaultConfig twoUploads 0).2 ≠ PublishOutcome.NO_VIDEOS ∧
    (∀ e ∈ demoEvents, e.isOperator = false) ∧
    (runFrom defaultConfig twoPublished demoEvents).filterMap StepRecord.wonSlot = [1, 0] ∧
    ((runFrom defaultConfig (adminPublish defaultConfig twoUploads 0).1 demoEvents).filterMap
      StepRecord.wonSlot).Nodup :=
  ⟨by decide, by decide, by decide,
    (C1_at_most_once_claim defaultConfig twoUploads 0 demoEvents (by decide) (by decide)).1⟩

/-- Counterexample to C2 as stated: `A` wins at 86399000 and holds the lock until 86407000; the
round expires at 86400000; the further call of `A` at 86400000, within the lock TTL, answers
`NO_ACTIVE_ROUND` and resets queue, lock, cached result, claims and tokens. -/
theorem C2_counterexample :
    (apiSpin defaultConfig twoPublished "A" 86399000 { num := 0, den := 1 } "tA").2 =
      Outcome.Won 0 "tA" "a.mp4" false 8000 ∧
    lateDraw.lock = { sessionId := some "A", until_ := 86407000 } ∧
    lateDraw.queue.head? = some "A" ∧
    mapGet lateDraw.activeSpinResult "A" = some { slotIndex := 0, token := "tA", name := "a.mp4" } ∧
    (86400000 : Int) < lateDraw.lock.until_ ∧
    (apiSpin defaultConfig lateDraw "A" 86400000 { num := 0, den := 1 } "tD").2 =
      Outcome.NoActiveRound ∧
    (apiSpin defaultConfig lateDraw "A" 86400000 { num := 0, den := 1 } "tD").1 ≠ lateDraw ∧
    (apiSpin defaultConfig lateDraw "A" 86400000 { num := 0, den := 1 } "tD").1.queue = [] ∧
    (apiSpin defaultConfig lateDraw "A" 86400000 { num := 0, den := 1 } "tD").1.downloads = [] ∧
    (apiSpin defaultConfig lateDraw "A" 86400000 { num := 0, den := 1 } "tD").1.lock =
      { sessionId := none, until_ := 0 } := by
  decide

/-- Witness of C2: `A` wins slot 0 at 1000 in `twoPublished`; in `aHoldsLock` (after `B` queued
up) the call of `A` at 3000 returns the same payload as a repeat and changes nothing. -/
theorem C2_repeat_under_lock_witness :
    apiSpin defaultConfig twoPublished "A" 1000 { num := 0, den := 1 } "tA" =
      ((apiSpin defaultConfig twoPublished "A" 1000 { num := 0, den := 1 } "tA").1,
        Outcome.Won 0 "tA" "a.mp4" false 8000) ∧
    aHoldsLock.lock.sessionId = some "A" ∧ aHoldsLock.queue.head? = some "A" ∧
    mapGet aHoldsLock.activeSpinResult "A" =
      some { slotIndex := 0, token := "tA", name := "a.mp4" } ∧
    getActiveRound aHoldsLock 3000 ≠ none ∧
    apiSpin defaultConfig aHoldsLock "A" 3000 { num := 1, den := 2 } "tX" =
      (aHoldsLock, Outcome.Won 0 "tA" "a.mp4" true (max0 (aHoldsLock.lock.until_ - 3000))) :=
  ⟨by decide, by decide, by decide, by decide, by decide,
    ((C2_repeat_under_lock defaultConfig twoPublished
      (apiSpin defaultConfig twoPublished "A" 1000 { num := 0, den := 1 } "tA").1 "A" 1000
      { num := 0, den := 1 } "tA" 0 "tA" "a.mp4" 8000 (by decide)).2
      aHoldsLock 3000 { num := 1, den := 2 } "tX" (by decide) (by decide) (by decide)
      (by decide)).1⟩

/-- Witness of C3: in `aHoldsLock` identity `C` is appended and told position 3; `B`, already
queued, is told position 2 and the state does not change. -/
theorem C3_queued_witness :
    getActiveRound aHoldsLock 3000 ≠ none ∧
    ((enqueue aHoldsLock.queue "C").head? ≠ some "C" ∨ heldByOther aHoldsLock "C" 3000 = true) ∧
    (apiSpin defaultConfig aHoldsLock "C" 3000 { num := 0, den := 1 } "tC").2 =
      Outcome.Queued 3 6000 ∧
    (apiSpin defaultConfig aHoldsLock "C" 3000 { num := 0, den := 1 } "tC").2 =
      Outcome.Queued ((enqueue aHoldsLock.queue "C").indexOf "C" + 1)
        (max0 (aHoldsLock.lock.until_ - 3000)) :=
  ⟨by decide, by decide, by decide,
    (C3_queued defaultConfig aHoldsLock "C" 3000 { num := 0, den := 1 } "tC" (by decide)
      (by decide)).1⟩

/-- Counterexample to C4 as stated: in `lateDraw` the queue is `[A, B, C]`; the call of `B` at
86400000 finds the round expired and leaves the queue empty, which is not the old queue with
at most its head removed and at most one identity appended. -/
theorem C4_counterexample :
    lateDraw.queue = ["A", "B", "C"] ∧
    (apiSpin defaultConfig lateDraw "B" 86400000 { num := 0, den := 1 } "tD").1.queue = [] ∧
    ¬ ∃ k app, k ≤ 1 ∧ (app = [] ∨ (app = ["B"] ∧ "B" ∉ lateDraw.queue)) ∧
      (apiSpin defaultConfig lateDraw "B" 86400000 { num := 0, den := 1 } "tD").1.queue =
        (lateDraw.queue ++ app).drop k := by
  have h1 : lateDraw.queue = ["A", "B", "C"] := by decide
  have h2 : (apiSpin defaultConfig lateDraw "B" 86400000 { num := 0, den := 1 } "tD").1.queue
      = [] := by decide
  refine ⟨h1, h2, ?_⟩
  rintro ⟨k, app, hk, happ, h⟩
  rw [h1, h2] at h
  have hlen := congrArg List.length h
  simp only [List.length_nil, List.length_drop, List.length_append, List.length_cons] at hlen
  omega

/-- Witness of C4 in `lateDraw`: the call of `B` at 86399300 leaves the queue `[A, B, C]` as it
is. -/
theorem C4_queue_fifo_witness :
    "B" ∈ (expireRoundIfNeeded lateDraw 86399300).queue ∧
    ∃ k, k ≤ 1 ∧
      (apiSpin defaultConfig lateDraw "B" 86399300 { num := 0, den := 1 } "tD").1.queue =
        (expireRoundIfNeeded lateDraw 86399300).queue.drop k :=
  ⟨by decide,
    (C4_queue_fifo defaultConfig lateDraw "B" 86399300 { num := 0, den := 1 } "tD").2.2.1
      (by decide)⟩

/-- Witness of C5: publishing `twoUploads` and the expiry of the round in `lateDraw`. -/
theorem C5_reset_witness :
    (adminPublish defaultConfig twoUploads 0).2 ≠ PublishOutcome.NO_VIDEOS ∧
    IsReset (adminPublish defaultConfig twoUploads 0).1 ∧
    selectActiveRound lateDraw.rounds =
      some { id := 1, published_at := 0, expires_at := 86400000, active := true } ∧
    IsReset (expireRoundIfNeeded lateDraw 86400000) :=
  ⟨by decide,
    (C5_reset_after_publish_clear_expiry defaultConfig twoUploads 0).1 (by decide),
    by decide,
    (C5_reset_after_publish_clear_expiry defaultConfig lateDraw 86400000).2.2
      { id := 1, published_at := 0, expires_at := 86400000, active := true } (by decide)
      (by decide)⟩

/-- Witness of C6: publishing fails on the fresh server and succeeds on `twoUploads`. -/
theorem C6_publish_witness :
    (adminPublish defaultConfig initialState 0).2 = PublishOutcome.NO_VIDEOS ∧
    (adminPublish defaultConfig initialState 0).1 = initialState ∧
    (adminPublish defaultConfig twoUploads 0).2 ≠ PublishOutcome.NO_VIDEOS ∧
    (adminPublish defaultConfig twoUploads 0).2 = PublishOutcome.Ok 0 (0 + 24 * 3600000) :=
  ⟨by decide,
    (C6_publish defaultConfig initialState 0).2.1 (by decide),
    by decide,
    ((C6_publish defaultConfig twoUploads 0).2.2 (by decide)).1⟩

/-- Witness of C7 in `aHoldsLock`, where token `tA` is bound to slot 0 and owned by `A`: `A` is
served the file `f0` of the row of slot 0, `B` is refused, an unknown token is not found. -/
theorem C7_retrieval_witness :
    watch aHoldsLock "tA" "A" = Response.WatchPage "a.mp4" "tA" ∧
    stream aHoldsLock "tA" "A" = Response.File "f0" ∧
    download aHoldsLock "tA" "A" = Response.Attachment "f0" "a.mp4" ∧
    getTokenRow aHoldsLock "tA" =
      some { token := "tA", slot_index := 0, session_id := "A", created_at := 1000 } ∧
    getSlotFile aHoldsLock 0 =
      some { slot_index := 0, filename := some "f0", original_name := some "a.mp4",
             uploaded_at := some 0, claimed := true, claimed_at := some 1000 } ∧
    stream aHoldsLock "tA" "B" = Response.Forbidden ∧
    getTokenRow aHoldsLock "zz" = none ∧
    download aHoldsLock "zz" "A" = Response.NotFound ∧
    ({ slot_index := 0, filename := some "f0", original_name := some "a.mp4",
       uploaded_at := some 0, claimed := true, claimed_at := some 1000 } : Slot) ∈
      aHoldsLock.slots :=
  ⟨by decide, by decide, by decide, by decide, by decide,
    ((C7_retrieval aHoldsLock "tA" "B").2.1 stream (by simp)).2.1
      { token := "tA", slot_index := 0, session_id := "A", created_at := 1000 } (by decide)
      (by decide),
    by decide,
    ((C7_retrieval aHoldsLock "zz" "A").2.1 download (by simp)).1 (by decide),
    ((C7_retrieval aHoldsLock "tA" "A").2.2.1
      { token := "tA", slot_index := 0, session_id := "A", created_at := 1000 }
      { slot_index := 0, filename := some "f0", original_name := some "a.mp4",
        uploaded_at := some 0, claimed := true, claimed_at := some 1000 }
      (by decide) (by decide) (by decide) (by decide)).1⟩

/-- Witness of C8 (B queued behind lock holder A, round expired): in `lateDraw` the call of `A`
with both clock reads at 86400000 answers `NO_ACTIVE_ROUND` and the state is reset. -/
theorem C8_no_active_round_witness :
    (∀ r ∈ lateDraw.rounds, r.active = true → r.expires_at ≤ 86400000) ∧
    selectActiveRound lateDraw.rounds =
      some { id := 1, published_at := 0, expires_at := 86400000, active := true } ∧
    (apiSpinAt defaultConfig lateDraw "A" 86400000 86400000 { num := 0, den := 1 } "tD").2 =
      Outcome.NoActiveRound ∧
    IsReset (apiSpinAt defaultConfig lateDraw "A" 86400000 86400000 { num := 0, den := 1 } "tD").1 :=
  ⟨by decide, by decide,
    (C8_no_active_round defaultConfig lateDraw "A" 86400000 86400000 { num := 0, den := 1 } "tD"
      (by decide)).1,
    ((C8_no_active_round defaultConfig lateDraw "A" 86400000 86400000 { num := 0, den := 1 } "tD"
      (by decide)).2.2.2.2.2.1
      { id := 1, published_at := 0, expires_at := 86400000, active := true } (by decide)
      (by decide)).1⟩

/-- Counterexample to C8 as stated: in `lateDraw` (`B` and `C` queued behind lock holder `A`)
the active round has `expires_at = 86400000`. The call of `A` reads the clock as 86399999 in
`expireRoundIfNeeded` and as 86400000 in `getActiveRound`: the round has expired at the
active-round check, the answer is `NO_ACTIVE_ROUND`, and nothing is reset: the queue is still
`[A, B, C]`, `A` still holds the lock, the token of `A` is still registered, slot 0 is still
claimed and the round row is still active. -/
theorem C8_counterexample :
    (∀ r ∈ lateDraw.rounds, r.active = true → r.expires_at ≤ 86400000) ∧
    (apiSpinAt defaultConfig lateDraw "A" 86399999 86400000 { num := 0, den := 1 } "tD").2 =
      Outcome.NoActiveRound ∧
    (apiSpinAt defaultConfig lateDraw "A" 86399999 86400000 { num := 0, den := 1 } "tD").1 =
      lateDraw ∧
    lateDraw.queue = ["A", "B", "C"] ∧
    lateDraw.lock = { sessionId := some "A", until_ := 86407000 } ∧
    lateDraw.downloads =
      [{ token := "tA", slot_index := 0, session_id := "A", created_at := 86399000 }] ∧
    (∃ r ∈ lateDraw.slots, r.claimed = true) ∧
    (∃ r ∈ lateDraw.rounds, r.active = true) ∧
    (apiSpinAt defaultConfig lateDraw "A" 86399999 86400000 { num := 0, den := 1 } "tD").1.queue
      ≠ [] := by
  decide

/-- Counterexample to C9 as stated: in `lockWithoutHolderQueued` the round is active, no slot
is populated and unclaimed, `B` is the head of the queue and has no cached result, yet the call
of `B` at 11500 answers `queued` at position 1, because the lock is held until 18000 by `C`;
`B` stays in the queue. Likewise in `eHoldsLock`, where `A` to `E` have won all five populated
slots, the sixth identity `F` calling at 41000 is answered `queued` at position 2 behind `E`. -/
theorem C9_counterexample :
    (∀ r ∈ eHoldsLock.slots, r.filename.isSome = true ∧ r.claimed = true) ∧
    (eHoldsLock.downloads.map (·.session_id)) = ["A", "B", "C", "D", "E"] ∧
    (apiSpin defaultConfig eHoldsLock "F" 41000 { num := 0, den := 1 } "tF").2 =
      Outcome.Queued 2 7000 ∧
    getActiveRound lockWithoutHolderQueued 11500 ≠ none ∧
    (∀ r ∈ lockWithoutHolderQueued.slots, ¬ (r.filename.isSome = true ∧ r.claimed = false)) ∧
    lockWithoutHolderQueued.queue = ["B"] ∧
    mapGet lockWithoutHolderQueued.activeSpinResult "B" = none ∧
    lockWithoutHolderQueued.lock = { sessionId := some "C", until_ := 18000 } ∧
    (apiSpin defaultConfig lockWithoutHolderQueued "B" 11500 { num := 0, den := 1 } "tD").2 =
      Outcome.Queued 1 6500 ∧
    (apiSpin defaultConfig lockWithoutHolderQueued "B" 11500 { num := 0, den := 1 } "tD").2 ≠
      Outcome.NoPrizesLeft ∧
    (apiSpin defaultConfig lockWithoutHolderQueued "B" 11500 { num := 0, den := 1 } "tD").1.queue =
      ["B"] := by
  decide

/-- Witness of C9: after `A` to `E` have won the five populated slots of `fivePublished` and
their locks are released, the sixth identity `F` receives `NO_PRIZES_LEFT`. -/
theorem C9_no_prizes_left_witness :
    (runFrom defaultConfig fivePublished fiveDraws).filterMap StepRecord.wonSlot = [0, 3, 4, 1, 2] ∧
    getActiveRound allClaimed 50000 ≠ none ∧
    (∀ r ∈ allClaimed.slots, ¬ (r.filename.isSome = true ∧ r.claimed = false)) ∧
    (enqueue allClaimed.queue "F").head? = some "F" ∧
    mapGet allClaimed.activeSpinResult "F" = none ∧
    heldByOther allClaimed "F" 50000 = false ∧
    apiSpin defaultConfig allClaimed "F" 50000 { num := 0, den := 1 } "tF" =
      ({ allClaimed with queue := allClaimed.queue.tail, broadcasts := allClaimed.broadcasts + 1 },
        Outcome.NoPrizesLeft) :=
  ⟨by decide, by decide, by decide, by decide, by decide, by decide,
    (C9_no_prizes_left defaultConfig allClaimed "F" 50000 { num := 0, den := 1 } "tF"
      (by decide) (by decide) (by decide) (by decide) (by decide)).1⟩

/-- Counterexample to C10 as stated: in `aDone` the round is active, `B` is the head of the
queue after enqueueing, has no cached result, the lock is free, slot 1 is available and the
random value is 0, yet the call of `B` at 10000 with the generated token `tA`, already the key
of a row of `downloads`, ends in an uncaught exception: no `Won` is returned, `downloads` has
no new row and `B` has no cached result, while slot 1 is claimed and `B` holds the lock. -/
theorem C10_counterexample :
    getActiveRound aDone 10000 ≠ none ∧
    (enqueue aDone.queue "B").head? = some "B" ∧
    mapGet aDone.activeSpinResult "B" = none ∧
    heldByOther aDone "B" 10000 = false ∧
    availableSlotIndexes aDone = [1] ∧
    (apiSpin defaultConfig aDone "B" 10000 { num := 0, den := 1 } "tA").2 = Outcome.ServerError ∧
    (apiSpin defaultConfig aDone "B" 10000 { num := 0, den := 1 } "tA").1.downloads =
      aDone.downloads ∧
    mapGet (apiSpin defaultConfig aDone "B" 10000 { num := 0, den := 1 } "tA").1.activeSpinResult
      "B" = none ∧
    availableSlotIndexes (apiSpin defaultConfig aDone "B" 10000 { num := 0, den := 1 } "tA").1 = [] ∧
    (apiSpin defaultConfig aDone "B" 10000 { num := 0, den := 1 } "tA").1.lock =
      { sessionId := some "B", until_ := 18000 } := by
  decide

/-- Witness of C10: in `aDone` the call of `B` at 10000 with the fresh token `tB` wins slot 1. -/
theorem C10_won_witness :
    getActiveRound aDone 10000 ≠ none ∧
    (enqueue aDone.queue "B").head? = some "B" ∧
    mapGet aDone.activeSpinResult "B" = none ∧
    heldByOther aDone "B" 10000 = false ∧
    availableSlotIndexes aDone ≠ [] ∧
    (∀ d ∈ aDone.downloads, d.token ≠ "tB") ∧
    (apiSpin defaultConfig aDone "B" 10000 { num := 1, den := 2 } "tB").2 =
      Outcome.Won 1 "tB" "b.mp4" false 8000 ∧
    ∃ slotIndex row name,
      (availableSlotIndexes aDone).get? (1 * (availableSlotIndexes aDone).length / 2)
        = some slotIndex ∧
      slotIndex ∈ availableSlotIndexes aDone ∧
      getSlotFile aDone slotIndex = some row ∧
      ((∃ n, row.original_name = some n ∧ n ≠ "" ∧ name = n) ∨
        ((row.original_name = none ∨ row.original_name = some "") ∧
          name = "slot_" ++ toString (slotIndex + 1))) ∧
      (apiSpin defaultConfig aDone "B" 10000 { num := 1, den := 2 } "tB").2 =
        Outcome.Won slotIndex "tB" name false (max0 defaultConfig.SPIN_LOCK_MS) :=
  ⟨by decide, by decide, by decide, by decide, by decide, by decide, by decide,
    (C10_won defaultConfig aDone "B" 10000 { num := 1, den := 2 } "tB" (by decide) (by decide)
      (by decide) (by decide) (by decide) (by decide) (by decide)).imp fun _ h =>
      h.imp fun _ h => h.imp fun _ h => ⟨h.1, h.2.1, h.2.2.1, h.2.2.2.1, h.2.2.2.2.1⟩⟩

theorem mapDelete_of_get_none {m : List (String × SpinResult)} {k : String}
    (h : mapGet m k = none) : mapDelete m k = m := by
  unfold mapGet at h
  simp only [Option.map_eq_none', List.find?_eq_none] at h
  unfold mapDelete
  rw [List.filter_eq_self]
  intro e he
  simpa using h e he

theorem releaseLockFor_noop {s : State} {X : String} (hl : s.lock.sessionId ≠ some X)
    (hq : s.queue.head? ≠ some X) (hc : mapGet s.activeSpinResult X = none) :
    releaseLockFor s X = { s with broadcasts := s.broadcasts + 1 } := by
  unfold releaseLockFor broadcastState
  simp only [if_neg hl, if_neg hq, mapDelete_of_get_none hc]

/-- No reset cancels a pending release timer: `clear`, `publish` and the expiry reset leave the
list of pending timers as it is. When a timer fires for identity `X` in a state where `X` is
not the lock holder, not the head of the queue and has no cached draw result, the queue, the
lock and the cached draw results are unchanged; this is so in particular in a reset state. -/
theorem release_timer_noop (cfg : Config) (s : State) (now : Int) :
    ((adminClear s).timers = s.timers ∧ (adminPublish cfg s now).1.timers = s.timers ∧
      (expireRoundIfNeeded s now).timers = s.timers) ∧
    (∀ X, s.lock.sessionId ≠ some X → s.queue.head? ≠ some X →
      mapGet s.activeSpinResult X = none →
      (releaseLockFor s X).queue = s.queue ∧ (releaseLockFor s X).lock = s.lock ∧
      (releaseLockFor s X).activeSpinResult = s.activeSpinResult) ∧
    (∀ k t, s.timers.get? k = some t → s.lock.sessionId ≠ some t.sid →
      s.queue.head? ≠ some t.sid → mapGet s.activeSpinResult t.sid = none →
      (fireTimer s k).queue = s.queue ∧ (fireTimer s k).lock = s.lock ∧
      (fireTimer s k).activeSpinResult = s.activeSpinResult ∧
      (fireTimer s k).slots = s.slots ∧ (fireTimer s k).downloads = s.downloads ∧
      (fireTimer s k).rounds = s.rounds) ∧
    (IsReset s → ∀ k,
      (fireTimer s k).queue = s.queue ∧ (fireTimer s k).lock = s.lock ∧
      (fireTimer s k).activeSpinResult = s.activeSpinResult) := by
  have hfire : ∀ k t, s.timers.get? k = some t → s.lock.sessionId ≠ some t.sid →
      s.queue.head? ≠ some t.sid → mapGet s.activeSpinResult t.sid = none →
      fireTimer s k = { s with timers := s.timers.eraseIdx k, broadcasts := s.broadcasts + 1 } := by
    intro k t hk hl hq hc
    unfold fireTimer
    simp only [hk]
    rw [releaseLockFor_noop (s := { s with timers := s.timers.eraseIdx k }) hl hq hc]
  refine ⟨⟨rfl, ?_, ?_⟩, ?_, ?_, ?_⟩
  · unfold adminPublish
    simp only
    split <;> rfl
  · rcases expire_cases s now with h | ⟨row, _, _, h⟩ <;> rw [h]
  · intro X hl hq hc
    rw [releaseLockFor_noop hl hq hc]
    exact ⟨rfl, rfl, rfl⟩
  · intro k t hk hl hq hc
    rw [hfire k t hk hl hq hc]
    exact ⟨rfl, rfl, rfl, rfl, rfl, rfl⟩
  · intro hreset k
    obtain ⟨hq, hl, hc, _, _⟩ := hreset
    cases hk : s.timers.get? k with
    | none => simp only [fireTimer, hk, and_self]
    | some t =>
      rw [hfire k t hk (by rw [hl]; simp) (by rw [hq]; simp) (by rw [hc]; rfl)]
      exact ⟨rfl, rfl, rfl⟩

/-- C11 (code bug). The failing input: in `staleTimerPending` the release of `A` scheduled in
the first round (at 1000, due at 9050) is still pending after the clear and the new publish,
and `A`, who drew again at 3000, is head of the queue and holds the lock until 11000. When that
timer fires, `releaseLockFor` finds the session id equal and clears the lock of the new round,
removes `A` from the queue and deletes the cached draw result of `A`: the new lock is released
6050 ms after it was taken, not after `SPIN_LOCK_MS = 8000`. A call of `B` at 9100, which is
answered `queued` behind `A` while the lock stands, now goes through. -/
theorem C11_stale_timer_releases_new_turn :
    staleTimerPending.timers = [{ sid := "A", due := 9050 }, { sid := "A", due := 11050 }] ∧
    staleTimerPending.queue = ["A", "B"] ∧
    staleTimerPending.lock = { sessionId := some "A", until_ := 11000 } ∧
    staleTimerPending.activeSpinResult =
      [("A", { slotIndex := 0, token := "tB", name := "c.mp4" })] ∧
    (fireTimer staleTimerPending 0).queue = ["B"] ∧
    (fireTimer staleTimerPending 0).lock = { sessionId := none, until_ := 0 } ∧
    (fireTimer staleTimerPending 0).activeSpinResult = [] ∧
    (fireTimer staleTimerPending 0).queue ≠ staleTimerPending.queue ∧
    (fireTimer staleTimerPending 0).lock ≠ staleTimerPending.lock ∧
    (fireTimer staleTimerPending 0).activeSpinResult ≠ staleTimerPending.activeSpinResult ∧
    (apiSpin defaultConfig staleTimerPending "B" 9100 { num := 0, den := 1 } "tD").2 =
      Outcome.Queued 2 1900 ∧
    (apiSpin defaultConfig (fireTimer staleTimerPending 0) "B" 9100 { num := 0, den := 1 }
      "tD").2 = Outcome.NoPrizesLeft := by
  decide

/-- The number of broadcasts one `POST /api/spin` emits after its expiry check: one on a fresh
`Won` and on `NoPrizesLeft`, none otherwise. -/
theorem apiSpin_broadcasts (cfg : Config) (s : State) (sid : String) (now : Int) (rnd : Rand)
    (token : String) (p : State × Outcome) (hp : apiSpin cfg s sid now rnd token = p) :
    ((p.2 = Outcome.NoPrizesLeft ∨ ∃ i t n l, p.2 = Outcome.Won i t n false l) →
      p.1.broadcasts = (expireRoundIfNeeded s now).broadcasts + 1) ∧
    ((p.2 = Outcome.NoActiveRound ∨ p.2 = Outcome.ServerError ∨ (∃ k l, p.2 = Outcome.Queued k l) ∨
        ∃ i t n l, p.2 = Outcome.Won i t n true l) →
      p.1.broadcasts = (expireRoundIfNeeded s now).broadcasts) := by
  unfold apiSpin at hp
  simp only at hp
  generalize expireRoundIfNeeded s now = s0 at hp ⊢
  split at hp
  · subst hp; simp
  · split at hp
    · subst hp; simp
    · split at hp
      · subst hp; simp
      · split at hp
        · subst hp; simp
        · split at hp
          · subst hp
            simp only [broadcastState]
            refine ⟨fun _ => ?_, by simp⟩
            split <;> rfl
          · split at hp
            · subst hp; simp
            · split at hp
              · subst hp; simp
              · split at hp
                · subst hp; simp
                · subst hp; simp [broadcastState]

/-- Every path that mutates queue, lock, claims or tokens other than the two `queued` answers
and an uncaught exception of `POST /api/spin` calls `broadcastState`. -/
theorem mutating_paths_broadcast (cfg : Config) (s : State) (sid : String) (now : Int)
    (rnd : Rand) (token : String) :
    ((adminPublish cfg s now).2 ≠ PublishOutcome.NO_VIDEOS →
      (adminPublish cfg s now).1.broadcasts = s.broadcasts + 1) ∧
    ((adminPublish cfg s now).2 = PublishOutcome.NO_VIDEOS → (adminPublish cfg s now).1 = s) ∧
    (adminClear s).broadcasts = s.broadcasts + 1 ∧
    (expireRoundIfNeeded s now = s ∨
      (expireRoundIfNeeded s now).broadcasts = s.broadcasts + 1) ∧
    (∀ X, (releaseLockFor s X).broadcasts = s.broadcasts + 1) ∧
    (∀ slot file, ((adminUpload s slot file now).2 = UploadOutcome.Ok →
        (adminUpload s slot file now).1.broadcasts = s.broadcasts + 1) ∧
      ((adminUpload s slot file now).2 ≠ UploadOutcome.Ok → (adminUpload s slot file now).1 = s)) ∧
    (((apiSpin cfg s sid now rnd token).2 = Outcome.NoPrizesLeft ∨
        ∃ i t n l, (apiSpin cfg s sid now rnd token).2 = Outcome.Won i t n false l) →
      (apiSpin cfg s sid now rnd token).1.broadcasts =
        (expireRoundIfNeeded s now).broadcasts + 1) := by
  refine ⟨?_, ?_, rfl, ?_, ?_, ?_, (apiSpin_broadcasts cfg s sid now rnd token _ rfl).1⟩
  · intro h
    unfold adminPublish at h ⊢
    simp only at h ⊢
    split
    · rename_i hc; simp [hc] at h
    · rfl
  · intro h
    unfold adminPublish at h ⊢
    simp only at h ⊢
    split
    · rfl
    · rename_i hc; simp [hc] at h
  · rcases expire_cases s now with h | ⟨row, _, _, h⟩
    · exact Or.inl h
    · right; rw [h]
  · intro X
    unfold releaseLockFor broadcastState
    simp only
    split <;> split <;> rfl
  · intro slot file
    unfold adminUpload
    split
    · simp
    · cases file with
      | none => simp
      | some f => simp [broadcastState]

/-- A caller that is not yet queued and asks while the round is active and others are queued
is appended to the queue and answered `queued`, and no state broadcast is emitted. -/
theorem queued_append_no_broadcast (cfg : Config) (s : State) (sid : String) (now : Int)
    (rnd : Rand) (token : String) (hround : getActiveRound s now ≠ none)
    (hnew : sid ∉ s.queue) (hne : s.queue ≠ []) :
    (apiSpin cfg s sid now rnd token).1.queue = s.queue ++ [sid] ∧
    (apiSpin cfg s sid now rnd token).1.broadcasts = s.broadcasts ∧
    ∃ k l, (apiSpin cfg s sid now rnd token).2 = Outcome.Queued k l := by
  have henq : enqueue s.queue sid = s.queue ++ [sid] := by
    unfold enqueue; rw [if_neg hnew]
  have hhead : (enqueue s.queue sid).head? ≠ some sid := by
    rw [henq]
    cases hq : s.queue with
    | nil => exact absurd hq hne
    | cons a q =>
      simp only [List.cons_append, List.head?_cons, ne_eq, Option.some.injEq]
      intro e
      exact hnew (by rw [hq, e]; exact List.mem_cons_self _ _)
  have hs := apiSpin_not_head cfg s sid now rnd token hround hhead
  refine ⟨by rw [hs, henq], by rw [hs], ?_⟩
  obtain ⟨r, hr⟩ := Option.ne_none_iff_exists'.1 hround
  unfold apiSpin
  simp only [expire_of_active hr, hr]
  split
  · exact ⟨_, _, rfl⟩
  · split
    · exact ⟨_, _, rfl⟩
    · rename_i h2
      simp only [Bool.not_eq_true', decide_eq_false_iff_not, not_not] at h2
      exact absurd h2 hhead

/-- C12 (code bug). The failing input: in `aHoldsLock` (round active, queue `[A, B]`, `A`
holds the lock) identity `C` calls `POST /api/spin` at 3000. The call appends `C` to the queue
and answers `queued` at position 3, yet the number of emitted state broadcasts is unchanged:
the queue was mutated and `broadcastState` was not called. The sibling paths do call it: in
`allClaimed`, the `NO_PRIZES_LEFT` answer to `F` emits one broadcast. -/
theorem C12_queued_append_not_broadcast :
    aHoldsLock.queue = ["A", "B"] ∧
    (apiSpin defaultConfig aHoldsLock "C" 3000 { num := 0, den := 1 } "tC").2 =
      Outcome.Queued 3 6000 ∧
    (apiSpin defaultConfig aHoldsLock "C" 3000 { num := 0, den := 1 } "tC").1.queue =
      ["A", "B", "C"] ∧
    (apiSpin defaultConfig aHoldsLock "C" 3000 { num := 0, den := 1 } "tC").1.queue ≠
      aHoldsLock.queue ∧
    (apiSpin defaultConfig aHoldsLock "C" 3000 { num := 0, den := 1 } "tC").1.broadcasts =
      aHoldsLock.broadcasts ∧
    (apiSpin defaultConfig allClaimed "F" 50000 { num := 0, den := 1 } "tF").2 =
      Outcome.NoPrizesLeft ∧
    (apiSpin defaultConfig allClaimed "F" 50000 { num := 0, den := 1 } "tF").1.broadcasts =
      allClaimed.broadcasts + 1 :=
  ⟨by decide, by decide, by decide, by decide,
    (queued_append_no_broadcast defaultConfig aHoldsLock "C" 3000 { num := 0, den := 1 } "tC"
      (by decide) (by decide) (by decide)).2.1,
    by decide, by decide⟩

theorem any_token_false_iff {ds : List Download} {token : String} :
    ds.any (fun d => d.token == token) = false ↔ ∀ d ∈ ds, d.token ≠ token := by
  simp only [List.any_eq_false, beq_iff_eq, ne_eq]

/-- What a fresh `Won` tells about the token: it is the generated one, it was not registered,
it is registered afterwards and cached for the caller, and the slot is claimed. -/
theorem apiSpin_fresh_won (cfg : Config) (s : State) (sid : String) (now : Int) (rnd : Rand)
    (token : String) (p : State × Outcome) (hp : apiSpin cfg s sid now rnd token = p)
    (i : Nat) (t n : String) (l : Int) (hw : p.2 = Outcome.Won i t n false l) :
    t = token ∧ (∀ d ∈ (expireRoundIfNeeded s now).downloads, d.token ≠ token) ∧
    p.1.downloads = (expireRoundIfNeeded s now).downloads ++
      [{ token := token, slot_index := i, session_id := sid, created_at := now }] ∧
    mapGet p.1.activeSpinResult sid = some { slotIndex := i, token := token, name := n } ∧
    p.1.slots = claimSlot (expireRoundIfNeeded s now).slots now i ∧
    p.1.lock = { sessionId := some sid, until_ := now + cfg.SPIN_LOCK_MS } := by
  unfold apiSpin at hp
  simp only at hp
  generalize expireRoundIfNeeded s now = s0 at hp ⊢
  split at hp
  · subst hp; simp at hw
  · split at hp
    · subst hp; simp at hw
    · split at hp
      · subst hp; simp at hw
      · split at hp
        · subst hp; simp at hw
        · rename_i hcache
          split at hp
          · subst hp; simp at hw
          · split at hp
            · subst hp; simp at hw
            · split at hp
              · subst hp; simp at hw
              · rename_i hany
                split at hp
                · subst hp; simp at hw
                · subst hp
                  simp only [Outcome.Won.injEq, true_and] at hw
                  obtain ⟨rfl, rfl, rfl, _⟩ := hw
                  refine ⟨rfl, ?_, rfl, ?_, rfl, rfl⟩
                  · simp only [Bool.not_eq_true] at hany
                    exact any_token_false_iff.1 hany
                  · exact mapGet_mapSet _ hcache

/-- With an active round, the caller head of the queue, no cached result, the lock free for
the caller, a slot available, a random value in `[0, 1)` and a token not yet registered, the
call wins. -/
theorem apiSpin_won_of_fresh (cfg : Config) (s : State) (sid : String) (now : Int) (rnd : Rand)
    (token : String) (hround : getActiveRound s now ≠ none)
    (hhead : (enqueue s.queue sid).head? = some sid)
    (hcache : mapGet s.activeSpinResult sid = none)
    (hlock : heldByOther s sid now = false)
    (havail : availableSlotIndexes s ≠ [])
    (hrnd : rnd.num < rnd.den)
    (hfresh : ∀ d ∈ s.downloads, d.token ≠ token) :
    ∃ i n, (apiSpin cfg s sid now rnd token).2 =
      Outcome.Won i token n false (max0 cfg.SPIN_LOCK_MS) := by
  obtain ⟨r, hr⟩ := Option.ne_none_iff_exists'.1 hround
  have hlen : (availableSlotIndexes s).length ≠ 0 := by
    simpa [List.length_eq_zero] using havail
  have hidx : rnd.num * (availableSlotIndexes s).length / rnd.den
      < (availableSlotIndexes s).length := by
    rcases pick_lt hrnd (availableSlotIndexes s).length with h | h
    · exact h
    · exact absurd h hlen
  obtain ⟨slotIndex, hget⟩ : ∃ i, (availableSlotIndexes s).get? (rnd.num *
      (availableSlotIndexes s).length / rnd.den) = some i :=
    ⟨_, List.get?_eq_get hidx⟩
  obtain ⟨row, hrow, _, _⟩ := getSlotFile_of_mem_avail (List.get?_mem hget)
  have hav : availableSlotIndexes { s with queue := enqueue s.queue sid }
      = availableSlotIndexes s := rfl
  have hslot : ∀ (l : Lock), getSlotFile { s with queue := enqueue s.queue sid, lock := l }
      slotIndex = some row := fun _ => hrow
  refine ⟨slotIndex, displayName row slotIndex, ?_⟩
  unfold apiSpin
  simp only [expire_of_active hr, hr, lock_guard_false _ hlock, hhead, hcache, hav, hlen,
    hget, hslot, any_token_false hfresh]
  simp

/-- C13 (amended). Minting keeps tokens unique and succeeds for every fresh token. A `Won`
that is not a repeat carries the generated token, which was not a key of `downloads` before;
afterwards `downloads` has the one new row for it, the caller has the payload cached, every row
of the won slot is claimed and the caller holds the lock. The tokens of `downloads` stay
pairwise distinct over every call. A generated token that is already registered is not
regenerated: the call returns no such `Won` and `downloads` gets no row. When the token is not
registered (and the round is active, the caller is head of the queue with no cached result,
the lock is free for it, a slot is available and the random value is in `[0, 1)`) the call
wins. -/
theorem C13_minting (cfg : Config) (s : State) (sid : String) (now : Int) (rnd : Rand)
    (token : String) :
    (∀ i t n l, (apiSpin cfg s sid now rnd token).2 = Outcome.Won i t n false l →
      t = token ∧ (∀ d ∈ (expireRoundIfNeeded s now).downloads, d.token ≠ token) ∧
      (apiSpin cfg s sid now rnd token).1.downloads =
        (expireRoundIfNeeded s now).downloads ++
          [{ token := token, slot_index := i, session_id := sid, created_at := now }] ∧
      mapGet (apiSpin cfg s sid now rnd token).1.activeSpinResult sid =
        some { slotIndex := i, token := token, name := n } ∧
      (∀ r ∈ (apiSpin cfg s sid now rnd token).1.slots, r.slot_index = i → r.claimed = true) ∧
      (apiSpin cfg s sid now rnd token).1.lock =
        { sessionId := some sid, until_ := now + cfg.SPIN_LOCK_MS }) ∧
    ((s.downloads.map (·.token)).Nodup →
      ((apiSpin cfg s sid now rnd token).1.downloads.map (·.token)).Nodup) ∧
    ((∃ d ∈ (expireRoundIfNeeded s now).downloads, d.token = token) →
      (∀ i t n l, (apiSpin cfg s sid now rnd token).2 ≠ Outcome.Won i t n false l) ∧
      (apiSpin cfg s sid now rnd token).1.downloads = (expireRoundIfNeeded s now).downloads) ∧
    (getActiveRound s now ≠ none → (enqueue s.queue sid).head? = some sid →
      mapGet s.activeSpinResult sid = none → heldByOther s sid now = false →
      availableSlotIndexes s ≠ [] → rnd.num < rnd.den →
      (∀ d ∈ s.downloads, d.token ≠ token) →
      ∃ i n, (apiSpin cfg s sid now rnd token).2 =
        Outcome.Won i token n false (max0 cfg.SPIN_LOCK_MS)) := by
  have hw := apiSpin_fresh_won cfg s sid now rnd token _ rfl
  have heff := apiSpin_effect cfg s sid now rnd token _ rfl
  have hnd0 : (s.downloads.map (·.token)).Nodup →
      ((expireRoundIfNeeded s now).downloads.map (·.token)).Nodup := by
    intro h
    rcases expire_slots_downloads s now with ⟨_, h2⟩ | ⟨_, h2⟩ <;> rw [h2]
    · exact h
    · simp
  refine ⟨?_, ?_, ?_, apiSpin_won_of_fresh cfg s sid now rnd token⟩
  · intro i t n l ho
    obtain ⟨h1, h2, h3, h4, h5, h6⟩ := hw i t n l ho
    exact ⟨h1, h2, h3, h4, fun r hr hri => (claimed_after_claim h5 r hr hri).1, h6⟩
  · intro hnd
    rcases heff with ⟨_, hs⟩ | ⟨_, ⟨_, hd, _⟩ | ⟨i, _, n, l, ho, _, hd⟩⟩
    · rw [hs]; exact hnd0 hnd
    · rw [hd]; exact hnd0 hnd
    · obtain ⟨_, hfresh, _⟩ := hw i token n l ho
      rw [hd, List.map_append, List.nodup_append]
      refine ⟨hnd0 hnd, by simp, ?_⟩
      intro a ha hb
      simp only [List.map_cons, List.map_nil, List.mem_singleton] at hb
      subst hb
      obtain ⟨d, hdm, hdt⟩ := List.mem_map.1 ha
      exact hfresh d hdm hdt
  · rintro ⟨d, hdm, hdt⟩
    have hno : ∀ i t n l, (apiSpin cfg s sid now rnd token).2 ≠ Outcome.Won i t n false l := by
      intro i t n l ho
      exact (hw i t n l ho).2.1 d hdm hdt
    refine ⟨hno, ?_⟩
    rcases heff with ⟨_, hs⟩ | ⟨_, ⟨_, hd, _⟩ | ⟨i, _, n, l, ho, _, _⟩⟩
    · rw [hs]
    · exact hd
    · exact absurd ho (hno i token n l)

/-- Witness of C13: in `firstOfFiveDone` the call of `B` at 10000 with the fresh token `tB`
wins, and the token is registered. -/
theorem C13_minting_witness :
    (apiSpin defaultConfig firstOfFiveDone "B" 10000 { num := 0, den := 1 } "tB").2 =
      Outcome.Won 1 "tB" "v.mp4" false 8000 ∧
    (apiSpin defaultConfig firstOfFiveDone "B" 10000 { num := 0, den := 1 } "tB").1.downloads =
      (expireRoundIfNeeded firstOfFiveDone 10000).downloads ++
        [{ token := "tB", slot_index := 1, session_id := "B", created_at := 10000 }] ∧
    ∃ i n, (apiSpin defaultConfig firstOfFiveDone "B" 10000 { num := 0, den := 1 } "tB").2 =
      Outcome.Won i "tB" n false (max0 defaultConfig.SPIN_LOCK_MS) :=
  ⟨by decide,
    ((C13_minting defaultConfig firstOfFiveDone "B" 10000 { num := 0, den := 1 } "tB").1
      1 "tB" "v.mp4" 8000 (by decide)).2.2.1,
    (C13_minting defaultConfig firstOfFiveDone "B" 10000 { num := 0, den := 1 } "tB").2.2.2
      (by decide) (by decide) (by decide) (by decide) (by decide) (by decide) (by decide)⟩

/-- Counterexample to C13 as stated: in `firstOfFiveDone` the token `tA` is registered for
slot 0. The call of `B` at 10000, head of the queue with slots 1 to 4 available, draws slot 1
and the generator returns `tA` again. The token is not regenerated: the call ends in an
uncaught exception after slot 1 was claimed, and slot 1 is left claimed with no row in
`downloads` and no cached result. -/
theorem C13_counterexample :
    getActiveRound firstOfFiveDone 10000 ≠ none ∧
    (enqueue firstOfFiveDone.queue "B").head? = some "B" ∧
    heldByOther firstOfFiveDone "B" 10000 = false ∧
    availableSlotIndexes firstOfFiveDone = [1, 2, 3, 4] ∧
    firstOfFiveDone.downloads =
      [{ token := "tA", slot_index := 0, session_id := "A", created_at := 1000 }] ∧
    (apiSpin defaultConfig firstOfFiveDone "B" 10000 { num := 0, den := 1 } "tA").2 =
      Outcome.ServerError ∧
    availableSlotIndexes
      (apiSpin defaultConfig firstOfFiveDone "B" 10000 { num := 0, den := 1 } "tA").1 =
      [2, 3, 4] ∧
    (∀ r ∈ (apiSpin defaultConfig firstOfFiveDone "B" 10000 { num := 0, den := 1 } "tA").1.slots,
      r.slot_index = 1 → r.claimed = true) ∧
    (apiSpin defaultConfig firstOfFiveDone "B" 10000 { num := 0, den := 1 } "tA").1.downloads =
      firstOfFiveDone.downloads ∧
    (∀ d ∈ (apiSpin defaultConfig firstOfFiveDone "B" 10000 { num := 0, den := 1 }
      "tA").1.downloads, d.slot_index ≠ 1) ∧
    (apiSpin defaultConfig firstOfFiveDone "B" 10000 { num := 0, den := 1 }
      "tA").1.activeSpinResult = [] := by
  decide

theorem claimSlot_keeps (slots : List Slot) (now : Int) (i : Nat) :
    List.Forall₂ (fun r r' : Slot => r'.slot_index = r.slot_index ∧ r'.filename = r.filename ∧
      (r.claimed = true → r'.claimed = true)) slots (claimSlot slots now i) := by
  unfold claimSlot
  rw [List.forall₂_map_right_iff, List.forall₂_same]
  intro r _
  by_cases h : r.slot_index = i
  · simp [h]
  · simp [h]

/-- C14 (amended). A `POST /api/spin` whose expiry check leaves the state alone, and a lock
release, never unclaim a slot: after the call the rows of `slots` are the same rows in the same
order, with the same index and file, and every row claimed before is claimed after; a release
leaves `slots` untouched. Hence in a run of spins, releases and sweeps from a published round no
slot is won twice. An upload into slot `k` is different: it sets `claimed = 0` and
`claimed_at = NULL` on the rows of index `k`, together with the new file, and leaves the other
rows unchanged; a refused upload changes nothing. -/
theorem C14_claimed_stays (cfg : Config) (s : State) (sid : String) (now : Int) (rnd : Rand)
    (token : String) :
    (expireRoundIfNeeded s now = s ∨
      ∃ row, selectActiveRound s.rounds = some row ∧ row.expires_at ≤ now) ∧
    (expireRoundIfNeeded s now = s →
      List.Forall₂ (fun r r' : Slot => r'.slot_index = r.slot_index ∧ r'.filename = r.filename ∧
        (r.claimed = true → r'.claimed = true)) s.slots (apiSpin cfg s sid now rnd token).1.slots) ∧
    (∀ X, (releaseLockFor s X).slots = s.slots) ∧
    (∀ k, (fireTimer s k).slots = s.slots) ∧
    (∀ evs : List Event, (adminPublish cfg s now).2 ≠ PublishOutcome.NO_VIDEOS →
      (∀ e ∈ evs, e.isOperator = false) →
      ((runFrom cfg (adminPublish cfg s now).1 evs).filterMap StepRecord.wonSlot).Nodup) ∧
    (∀ slot file, (adminUpload s slot file now).2 = UploadOutcome.Ok →
      ∃ f, file = some f ∧
        (adminUpload s slot file now).1.slots = s.slots.map (fun r =>
          if (r.slot_index : Int) = slot then
            { r with filename := some f.filename, original_name := some f.originalname,
                     uploaded_at := some now, claimed := false, claimed_at := none }
          else r)) ∧
    (∀ slot file, (adminUpload s slot file now).2 ≠ UploadOutcome.Ok →
      (adminUpload s slot file now).1 = s) := by
  refine ⟨?_, ?_, ?_, fun k => (fireTimer_slots_downloads s k).1, ?_, ?_, ?_⟩
  · rcases expire_cases s now with h | ⟨row, h1, h2, _⟩
    · exact Or.inl h
    · exact Or.inr ⟨row, h1, h2⟩
  · intro hsame
    have hrefl : List.Forall₂ (fun r r' : Slot => r'.slot_index = r.slot_index ∧
        r'.filename = r.filename ∧ (r.claimed = true → r'.claimed = true)) s.slots s.slots := by
      rw [List.forall₂_same]; intro r _; exact ⟨rfl, rfl, id⟩
    rcases apiSpin_effect cfg s sid now rnd token _ rfl with
      ⟨_, hs⟩ | ⟨_, ⟨_, _, hsl | ⟨i, _, hsl⟩⟩ | ⟨i, _, _, _, _, hsl, _⟩⟩
    · rw [hs, hsame]; exact hrefl
    · rw [hsl, hsame]; exact hrefl
    · rw [hsl, hsame]; exact claimSlot_keeps _ _ _
    · rw [hsl, hsame]; exact claimSlot_keeps _ _ _
  · intro X
    unfold releaseLockFor broadcastState
    simp only
    split <;> split <;> rfl
  · intro evs hpub hops
    exact (run_tokensDistinct cfg evs _ (publish_tokensDistinct cfg s now hpub) hops).2.2.1
  · intro slot file h
    unfold adminUpload at h ⊢
    split at h
    · simp at h
    · rename_i hr
      cases file with
      | none => simp at h
      | some f => exact ⟨f, rfl, by simp only [if_neg hr, broadcastState]⟩
  · intro slot file h
    unfold adminUpload at h ⊢
    split
    · rfl
    · rename_i hr
      cases file with
      | none => rfl
      | some f => rw [if_neg hr] at h; exact absurd rfl h

/-- Witness of C14: in `aDone`, where slot 0 is claimed, the draw of `B` at 10000 keeps slot 0
claimed. -/
theorem C14_claimed_stays_witness :
    expireRoundIfNeeded aDone 10000 = aDone ∧
    List.Forall₂ (fun r r' : Slot => r'.slot_index = r.slot_index ∧ r'.filename = r.filename ∧
      (r.claimed = true → r'.claimed = true)) aDone.slots
      (apiSpin defaultConfig aDone "B" 10000 { num := 0, den := 1 } "tB").1.slots :=
  ⟨by decide,
    (C14_claimed_stays defaultConfig aDone "B" 10000 { num := 0, den := 1 } "tB").2.1
      (by decide)⟩

/-- Counterexample to C14 as stated: in the run `reuploadEvents`, within one round of
`twoPublished`, slot 0 is claimed before the upload into slot 0 and unclaimed after it, and
slot 0 is then won a second time: `A` wins slot 0 at 1000 and `B` wins slot 0 at 10000. -/
theorem C14_counterexample :
    (∀ r ∈ aDone.slots, r.slot_index = 0 → r.claimed = true) ∧
    (adminUpload aDone 0 (some { filename := "g0", originalname := "c.mp4" }) 5000).2 =
      UploadOutcome.Ok ∧
    (∀ r ∈ (adminUpload aDone 0 (some { filename := "g0", originalname := "c.mp4" }) 5000).1.slots,
      r.slot_index = 0 → r.claimed = false) ∧
    (adminUpload aDone 0 (some { filename := "g0", originalname := "c.mp4" }) 5000).1.rounds =
      aDone.rounds ∧
    (runFrom defaultConfig twoPublished reuploadEvents).map (·.outcome) =
      [some (Outcome.Won 0 "tA" "a.mp4" false 8000), none, none,
       some (Outcome.Won 0 "tB" "c.mp4" false 8000)] ∧
    (runFrom defaultConfig twoPublished reuploadEvents).filterMap StepRecord.wonSlot = [0, 0] ∧
    ¬ ((runFrom defaultConfig twoPublished reuploadEvents).filterMap StepRecord.wonSlot).Nodup := by
  decide

theorem lockInv_of_free {s : State} (hl : s.lock.sessionId = none)
    (hc : s.activeSpinResult = []) : LockInv s := by
  unfold LockInv
  rw [hl, hc]
  simp

theorem head_enqueue_of_head {q : List String} {h : String} (sid : String)
    (hh : q.head? = some h) : (enqueue q sid).head? = some h := by
  unfold enqueue
  split
  · exact hh
  · cases q with
    | nil => simp at hh
    | cons a t => simpa using hh

theorem lockInv_enqueue {s : State} (sid : String) (h : LockInv s) :
    LockInv { s with queue := enqueue s.queue sid } := by
  obtain ⟨h1, h2, h3⟩ := h
  exact ⟨fun x hx => ⟨head_enqueue_of_head sid (h1 x hx).1, (h1 x hx).2⟩, h2, h3⟩

theorem one_le_indexOf {l : List String} {x : String} (hh : l.head? ≠ some x) (hx : x ∈ l) :
    1 ≤ l.indexOf x := by
  cases l with
  | nil => simp at hx
  | cons a t =>
    have hne : a ≠ x := by simpa using hh
    rw [List.indexOf_cons_ne _ hne]
    omega

theorem lockInv_no_holder {s : State} {sid : String} (h : LockInv s)
    (hturn : s.queue.head? = some sid) (hcache : mapGet s.activeSpinResult sid = none) :
    s.lock.sessionId = none ∧ s.activeSpinResult = [] := by
  obtain ⟨h1, h2, _⟩ := h
  have hnone : s.lock.sessionId = none := by
    cases hl : s.lock.sessionId with
    | none => rfl
    | some x =>
      obtain ⟨hx1, hx2⟩ := h1 x hl
      rw [hturn] at hx1
      simp only [Option.some.injEq] at hx1
      subst hx1
      exact absurd hcache hx2
  refine ⟨hnone, ?_⟩
  rw [List.eq_nil_iff_forall_not_mem]
  intro e he
  have := h2 e he
  rw [hnone] at this
  simp at this

theorem apiSpin_lockInv (cfg : Config) (s : State) (sid : String) (now : Int) (rnd : Rand)
    (token : String) (p : State × Outcome) (hp : apiSpin cfg s sid now rnd token = p)
    (h : LockInv (expireRoundIfNeeded s now)) (hok : p.2 ≠ Outcome.ServerError) :
    LockInv p.1 ∧ ∀ k l, p.2 = Outcome.Queued k l → 2 ≤ k := by
  unfold apiSpin at hp
  simp only at hp
  generalize expireRoundIfNeeded s now = s0 at hp h
  have h1 := lockInv_enqueue sid h
  split at hp
  · subst hp; exact ⟨h, by simp⟩
  · split at hp
    · rename_i hg
      subst hp
      refine ⟨h1, ?_⟩
      intro k l hk
      simp only [Outcome.Queued.injEq] at hk
      obtain ⟨rfl, _⟩ := hk
      simp only [Bool.and_eq_true, decide_eq_true_eq] at hg
      obtain ⟨x, hx⟩ := Option.isSome_iff_exists.1 hg.1.1
      have hhead := (h1.1 x hx).1
      have hne : (enqueue s0.queue sid).head? ≠ some sid := by
        rw [show (enqueue s0.queue sid).head? = some x from hhead]
        intro e
        exact hg.2 (by rw [show s0.lock.sessionId = some x from hx, e])
      have := one_le_indexOf hne (mem_enqueue s0.queue sid)
      show 2 ≤ (enqueue s0.queue sid).indexOf sid + 1
      omega
    · split at hp
      · rename_i hturn
        subst hp
        refine ⟨h1, ?_⟩
        intro k l hk
        simp only [Outcome.Queued.injEq] at hk
        obtain ⟨rfl, _⟩ := hk
        simp only [Bool.not_eq_true', decide_eq_false_iff_not] at hturn
        have := one_le_indexOf hturn (mem_enqueue s0.queue sid)
        show 2 ≤ (enqueue s0.queue sid).indexOf sid + 1
        omega
      · rename_i hturn
        simp only [Bool.not_eq_true', decide_eq_false_iff_not, not_not] at hturn
        split at hp
        · subst hp; exact ⟨h1, by simp⟩
        · rename_i hcache
          obtain ⟨hl, hc⟩ := lockInv_no_holder h1 hturn hcache
          split at hp
          · subst hp
            refine ⟨lockInv_of_free ?_ ?_, by simp⟩
            · exact hl
            · exact hc
          · split at hp
            · subst hp; exact absurd rfl hok
            · split at hp
              · subst hp; exact absurd rfl hok
              · split at hp
                · subst hp; exact absurd rfl hok
                · subst hp
                  refine ⟨⟨?_, ?_, ?_⟩, by simp⟩
                  · intro x hx
                    simp only [broadcastState, Option.some.injEq] at hx
                    subst hx
                    refine ⟨hturn, ?_⟩
                    simp only [broadcastState]
                    rw [mapGet_mapSet _ hcache]
                    simp
                  · intro e he
                    simp only [broadcastState] at he ⊢
                    have hc2 : s0.activeSpinResult = [] := hc
                    rw [hc2] at he
                    simp only [mapSet, mapHas, List.any_nil, Bool.false_eq_true, if_false,
                      List.nil_append, List.mem_singleton] at he
                    rw [he]
                  · simp only [broadcastState]
                    have hc2 : s0.activeSpinResult = [] := hc
                    rw [hc2]
                    simp [mapSet, mapHas]

theorem releaseLockFor_lock_cache (s : State) (X : String) :
    (releaseLockFor s X).lock =
      (if s.lock.sessionId = some X then { sessionId := none, until_ := 0 } else s.lock) ∧
    (releaseLockFor s X).activeSpinResult = mapDelete s.activeSpinResult X := by
  unfold releaseLockFor broadcastState
  simp only
  split <;> split <;> exact ⟨rfl, rfl⟩

theorem release_lockInv {s : State} (X : String) (h : LockInv s) :
    LockInv (releaseLockFor s X) := by
  obtain ⟨hlk, hca⟩ := releaseLockFor_lock_cache s X
  have hq := releaseLockFor_queue s X
  obtain ⟨h1, h2, h3⟩ := h
  by_cases hX : s.lock.sessionId = some X
  · apply lockInv_of_free
    · rw [hlk, if_pos hX]
    · rw [hca]
      unfold mapDelete
      rw [List.filter_eq_nil_iff]
      intro e he
      have := h2 e he
      rw [hX] at this
      simp only [Option.some.injEq] at this
      simp [this]
  · cases hl : s.lock.sessionId with
    | none =>
      apply lockInv_of_free
      · rw [hlk, if_neg hX]; exact hl
      · rw [hca]
        have : s.activeSpinResult = [] := by
          rw [List.eq_nil_iff_forall_not_mem]
          intro e he
          have := h2 e he
          rw [hl] at this
          simp at this
        rw [this]; rfl
    | some Y =>
      have hYX : Y ≠ X := fun e => hX (by rw [hl, e])
      have hhead := (h1 Y hl).1
      have hq2 : (releaseLockFor s X).queue = s.queue := by
        rw [hq, if_neg]
        rw [hhead]
        simpa using hYX
      have hc2 : (releaseLockFor s X).activeSpinResult = s.activeSpinResult := by
        rw [hca]
        unfold mapDelete
        rw [List.filter_eq_self]
        intro e he
        have := h2 e he
        rw [hl] at this
        simp only [Option.some.injEq] at this
        simp only [Bool.not_eq_true', beq_eq_false_iff_ne, ne_eq]
        rw [← this]
        exact hYX
      have hl2 : (releaseLockFor s X).lock = s.lock := by rw [hlk, if_neg hX]
      unfold LockInv
      rw [hq2, hc2, hl2]
      exact ⟨h1, h2, h3⟩

theorem expire_lockInv {s : State} (now : Int) (h : LockInv s) :
    LockInv (expireRoundIfNeeded s now) := by
  rcases expire_cases s now with e | ⟨row, _, _, e⟩ <;> rw [e]
  · exact h
  · exact lockInv_of_free rfl rfl

/-- One step that does not end in an uncaught exception keeps `LockInv`, and a `queued` answer
reports a position of at least 2. -/
theorem step_lockInv (cfg : Config) (s : State) (e : Event) (h : LockInv s)
    (hok : (step cfg s e).2 ≠ some Outcome.ServerError) :
    LockInv (step cfg s e).1 ∧
    ∀ k l, (step cfg s e).2 = some (Outcome.Queued k l) → 2 ≤ k := by
  cases e with
  | spin sid now rnd token =>
    simp only [step] at hok ⊢
    have := apiSpin_lockInv cfg s sid now rnd token _ rfl (expire_lockInv now h)
      (fun e => hok (by rw [e]))
    exact ⟨this.1, fun k l hk => this.2 k l (Option.some.inj hk)⟩
  | timer k =>
    simp only [step]
    refine ⟨?_, by simp⟩
    unfold fireTimer
    split
    · exact h
    · exact release_lockInv _ h
  | sweep now => exact ⟨expire_lockInv now h, by simp [step]⟩
  | publish now =>
    simp only [step]
    refine ⟨?_, by simp⟩
    unfold adminPublish
    simp only
    split
    · exact h
    · exact lockInv_of_free rfl rfl
  | clear => exact ⟨lockInv_of_free rfl rfl, by simp [step]⟩
  | upload slot file now =>
    simp only [step]
    refine ⟨?_, by simp⟩
    unfold adminUpload
    split
    · exact h
    · cases file with
      | none => exact h
      | some f => exact h

theorem run_lockInv (cfg : Config) (evs : List Event) :
    ∀ s : State, LockInv s →
      (∀ rec ∈ runFrom cfg s evs, rec.outcome ≠ some Outcome.ServerError) →
      LockInv (finalState cfg s evs) ∧
      ∀ rec ∈ runFrom cfg s evs, ∀ k l, rec.outcome = some (Outcome.Queued k l) → 2 ≤ k := by
  induction evs with
  | nil => intro s h _; exact ⟨h, by simp [runFrom]⟩
  | cons e es ih =>
    intro s h hok
    simp only [runFrom, List.mem_cons, forall_eq_or_imp] at hok
    obtain ⟨h1, h2⟩ := step_lockInv cfg s e h hok.1
    obtain ⟨i1, i2⟩ := ih (step cfg s e).1 h1 hok.2
    refine ⟨i1, ?_⟩
    intro rec hrec k l hk
    simp only [runFrom] at hrec
    rcases List.mem_cons.1 hrec with rfl | hrec
    · exact h2 k l hk
    · exact i2 rec hrec k l hk

/-- C15 (amended). Start the process (lock unheld, no cached draw result, any database; in
particular `initialState`) and run any sequence of uploads, publishes, clears, expiry sweeps,
`POST /api/spin` calls and release-timer firings in which no call ends in an uncaught
exception. In the state reached: if the lock holder is non-null it is the head of the queue
and has a cached draw result, every cached draw result belongs to the lock holder, and there
is at most one cached draw result. Every `queued` answer of the run reports a position of at
least 2. -/
theorem C15_lock_holder_is_head (cfg : Config) (s : State) (evs : List Event)
    (hl : s.lock.sessionId = none) (hc : s.activeSpinResult = [])
    (hok : ∀ rec ∈ runFrom cfg s evs, rec.outcome ≠ some Outcome.ServerError) :
    ((∀ h, (finalState cfg s evs).lock.sessionId = some h →
        (finalState cfg s evs).queue.head? = some h ∧
        mapGet (finalState cfg s evs).activeSpinResult h ≠ none) ∧
      (∀ e ∈ (finalState cfg s evs).activeSpinResult,
        (finalState cfg s evs).lock.sessionId = some e.1) ∧
      (finalState cfg s evs).activeSpinResult.length ≤ 1) ∧
    ∀ rec ∈ runFrom cfg s evs, ∀ k l, rec.outcome = some (Outcome.Queued k l) → 2 ≤ k :=
  run_lockInv cfg evs s (lockInv_of_free hl hc) hok

/-- Witness of C15 on the run `plainEvents` from `initialState`. -/
theorem C15_lock_holder_is_head_witness :
    initialState.lock.sessionId = none ∧ initialState.activeSpinResult = [] ∧
    (∀ rec ∈ runFrom defaultConfig initialState plainEvents,
      rec.outcome ≠ some Outcome.ServerError) ∧
    (finalState defaultConfig initialState plainEvents).lock.sessionId = some "B" ∧
    (finalState defaultConfig initialState plainEvents).queue.head? = some "B" ∧
    ∀ rec ∈ runFrom defaultConfig initialState plainEvents,
      ∀ k l, rec.outcome = some (Outcome.Queued k l) → 2 ≤ k :=
  ⟨by decide, by decide, by decide, by decide, by decide,
    (C15_lock_holder_is_head defaultConfig initialState plainEvents (by decide) (by decide)
      (by decide)).2⟩

/-- Counterexample to C15 as stated: the run `collisionEvents` from `initialState` uses only
uploads, a publish, spins and a timer firing. After its sixth step (the draw of `C` whose
`INSERT` fails on the token `tA`) the lock holder `C` has no cached draw result; at its end the
lock holder `C` is not the head of the queue, which is `[B]`; and the next call of `B`, at
11500, is answered `queued` at position 1. -/
theorem C15_counterexample :
    (runFrom defaultConfig initialState collisionEvents).map (·.outcome) =
      [none, none, none, some (Outcome.Won 0 "tA" "a.mp4" false 8000), none,
       some Outcome.ServerError, some (Outcome.Queued 2 7500), some Outcome.NoPrizesLeft] ∧
    (finalState defaultConfig initialState (collisionEvents.take 6)).lock.sessionId = some "C" ∧
    (finalState defaultConfig initialState (collisionEvents.take 6)).queue.head? = some "C" ∧
    mapGet (finalState defaultConfig initialState (collisionEvents.take 6)).activeSpinResult "C"
      = none ∧
    (finalState defaultConfig initialState collisionEvents).lock =
      { sessionId := some "C", until_ := 18000 } ∧
    (finalState defaultConfig initialState collisionEvents).queue = ["B"] ∧
    (finalState defaultConfig initialState collisionEvents).queue.head? ≠ some "C" ∧
    (apiSpin defaultConfig (finalState defaultConfig initialState collisionEvents) "B" 11500
      { num := 0, den := 1 } "tD").2 = Outcome.Queued 1 6500 := by
  decide

end Fortune
